import Mathlib

/-!
# Verification of the voiceshare jitter buffer, server fan-out and discovery

A shallow embedding of the core of `src/jitter_buffer.c`, `src/server.c`
and `src/client.c` (a LAN voice-conference relay written in C), together
with proofs of the behavioural claims made by its specification.

Modelling conventions:
* machine integers become `Nat` with explicit reduction (`% 65536` for
  `uint16_t`, `% 4294967296` for `uint32_t`) exactly where the C code's
  arithmetic wraps, and `Int` where the C code computes in `int`;
* the `float` fields of the C code appear only in the jitter EMA
  (`jitter`, `avg_jitter_ms`, fed by `update_jitter`) and in `loss_rate`.
  The EMA fields are observably irrelevant to every property proved here
  and are omitted; `loss_rate` is modelled with exact rational division,
  since the properties below concern *when* it is recomputed, not its
  rounding;
* C callbacks (`decode_func`, `plc_func`) become function-valued fields;
  the C null-pointer tests `decode_func && decoder` / `plc_func && decoder`
  become the booleans `hasDecoder` / `hasPlc`;
* byte buffers become `List Nat`, PCM buffers `List Int`; a `memcpy` of
  `n` entries becomes `List.take n`;
* the per-buffer mutex serialises every operation in the C code, so the
  sequential functions below are the mutex-protected bodies.
-/

namespace Voiceshare

/-- `JITTER_BUFFER_SLOTS` from `common.h` (ring capacity). -/
def JITTER_BUFFER_SLOTS : Nat := 16

/-- `AUDIO_FRAME_SAMPLES` from `common.h` (48000 * 20 / 1000). -/
def AUDIO_FRAME_SAMPLES : Nat := 960

/-- `OPUS_MAX_PACKET` from `common.h`. -/
def OPUS_MAX_PACKET : Nat := 512

/-- `MAX_CLIENTS` from `common.h`. -/
def MAX_CLIENTS : Nat := 16

/-- `MAX_SERVERS` from `common.h` (client-side discovery directory capacity). -/
def MAX_SERVERS : Nat := 32

/-- Modulus of `uint16_t`. -/
def U16 : Nat := 65536

/-- Modulus of `uint32_t`. -/
def U32 : Nat := 4294967296

/-- Reinterpret a value modulo 2^16 as a signed 16-bit integer,
modelling C's `(int16_t)` cast of an unsigned 16-bit result. -/
def toInt16 (n : Nat) : Int :=
  let m := n % U16
  if m < 32768 then (m : Int) else (m : Int) - (U16 : Int)

/-- The RTP header fields used by the jitter buffer (`RtpHeader` in
`protocol.h`): `sequence : uint16_t`, `timestamp : uint32_t`,
`ssrc : uint32_t`.  The version/payload-type/flag bytes are not read by
the code modelled here. -/
structure RtpHeader where
  sequence : Nat
  timestamp : Nat
  ssrc : Nat
  deriving Repr, DecidableEq

/-- An `RtpHeader` whose fields fit their C integer types. -/
def RtpHeader.Wf (r : RtpHeader) : Prop :=
  r.sequence < U16 ∧ r.timestamp < U32 ∧ r.ssrc < U32

/-- `JitterSlot` from `jitter_buffer.h`.  `state` is `0` (`JB_SLOT_EMPTY`),
`1` (`JB_SLOT_FILLED`) or `2` (`JB_SLOT_DECODED`).  `payload` models the
meaningful prefix (`payload_len` bytes) of the 512-byte payload array;
`decoded` models the PCM area written by the decoder. -/
structure JitterSlot where
  state : Nat
  sequence : Nat
  timestamp : Nat
  ssrc : Nat
  payload_len : Nat
  payload : List Nat
  decoded : List Int
  decoded_samples : Int
  recv_time : Nat
  deriving Repr, DecidableEq

/-- The all-zero slot produced by `calloc` in `JitterBuffer_Create`. -/
def JitterSlot.zero : JitterSlot :=
  { state := 0, sequence := 0, timestamp := 0, ssrc := 0, payload_len := 0,
    payload := [], decoded := [], decoded_samples := 0, recv_time := 0 }

instance : Inhabited JitterSlot := ⟨JitterSlot.zero⟩

/-- `JitterStats` from `jitter_buffer.h`; counters are `uint32_t`
(`avg_jitter_ms`, a float EMA, is omitted — see the file header). -/
structure JitterStats where
  packets_received : Nat
  packets_lost : Nat
  packets_late : Nat
  packets_reorder : Nat
  underruns : Nat
  overruns : Nat
  loss_rate : ℚ
  deriving Repr, DecidableEq

/-- The zeroed statistics block (`memset` in `Create`/`Reset`). -/
def JitterStats.zero : JitterStats :=
  { packets_received := 0, packets_lost := 0, packets_late := 0,
    packets_reorder := 0, underruns := 0, overruns := 0, loss_rate := 0 }

/-- `struct JitterBuffer` from `jitter_buffer.c`.  The mutex is the
serialisation discipline, the decoder pointer pair is folded into
`hasDecoder`/`decode_func` (and `hasPlc`/`plc_func`), and the
float jitter-EMA fields are omitted.  `decode_func payload payload_len`
returns the decoder's return value together with the PCM it wrote;
`plc_func frame_size` returns the PLC callback's return value together
with the PCM it wrote. -/
structure JitterBuffer where
  slots : List JitterSlot
  head : Nat
  tail : Nat
  count : Nat
  next_seq : Nat
  seq_initialized : Bool
  base_timestamp : Nat
  base_time : Nat
  time_initialized : Bool
  stats : JitterStats
  hasDecoder : Bool
  decode_func : List Nat → Nat → Int × List Int
  hasPlc : Bool
  plc_func : Nat → Int × List Int

/-- `JitterBuffer_Create` (the `calloc` zero state; the config fields are
not read by any modelled operation and are omitted).  The decoder and PLC
entry points are absent until `SetDecoder`/`SetPlc`. -/
def JitterBuffer_Create : JitterBuffer :=
  { slots := List.replicate JITTER_BUFFER_SLOTS JitterSlot.zero,
    head := 0, tail := 0, count := 0, next_seq := 0, seq_initialized := false,
    base_timestamp := 0, base_time := 0, time_initialized := false,
    stats := JitterStats.zero,
    hasDecoder := false, decode_func := fun _ _ => (0, []),
    hasPlc := false, plc_func := fun _ => (0, []) }

/-- `JitterBuffer_SetDecoder`: `has` models `decoder ≠ NULL ∧ decode_func ≠ NULL`. -/
def JitterBuffer_SetDecoder (jb : JitterBuffer) (has : Bool)
    (f : List Nat → Nat → Int × List Int) : JitterBuffer :=
  { jb with hasDecoder := has, decode_func := f }

/-- `JitterBuffer_SetPlc`: `has` models `plc_func ≠ NULL ∧ decoder ≠ NULL`. -/
def JitterBuffer_SetPlc (jb : JitterBuffer) (has : Bool)
    (f : Nat → Int × List Int) : JitterBuffer :=
  { jb with hasPlc := has, plc_func := f }

/-- `seq_compare` from `jitter_buffer.c`: `(int16_t)(a - b)` on `uint16_t`
arguments. -/
def seq_compare (a b : Nat) : Int :=
  toInt16 (a + U16 - b % U16)

/-- `seq_distance` from `jitter_buffer.c`: `(int16_t)(to - from)`. -/
def seq_distance (f t : Nat) : Int :=
  toInt16 (t + U16 - f % U16)

/-- `find_slot_for_seq` from `jitter_buffer.c`.  Returns `-1` (too old),
`-2` (too new) or the slot index `(head + distance + 16) % 16` (a
non-negative `int` in C, hence the `toNat`). -/
def find_slot_for_seq (jb : JitterBuffer) (seq : Nat) : Int :=
  if jb.seq_initialized = false then (jb.tail : Int)
  else
    let distance := seq_distance jb.next_seq seq
    if distance < -((JITTER_BUFFER_SLOTS : Int) / 2) then -1
    else if (JITTER_BUFFER_SLOTS : Int) ≤ distance then -2
    else (((((jb.head : Int) + distance + (JITTER_BUFFER_SLOTS : Int)).toNat)
            % JITTER_BUFFER_SLOTS : Nat) : Int)

/-- `decode_slot` from `jitter_buffer.c`: decode a FILLED slot in place,
returning the sample count on success and `-1` on failure, together with
the updated slot (the decoder's writes persist even on failure). -/
def decode_slot (jb : JitterBuffer) (slot : JitterSlot) : Int × JitterSlot :=
  if slot.state ≠ 1 then (-1, slot)
  else if jb.hasDecoder then
    let r := jb.decode_func slot.payload slot.payload_len
    let slot' := { slot with decoded_samples := r.1, decoded := r.2 }
    if 0 < r.1 then (r.1, { slot' with state := 2 })
    else (-1, slot')
  else (-1, slot)

/-- `plc_frame` from `jitter_buffer.c`: one concealment frame via the PLC
entry point, or `frame_size` zero samples (silence) when no PLC is set. -/
def plc_frame (jb : JitterBuffer) (frame_size : Nat) : Int × List Int :=
  if jb.hasPlc then jb.plc_func frame_size
  else ((frame_size : Int), List.replicate frame_size 0)

/-- The first-packet initialisation block of `JitterBuffer_Put`
(lines 241–248 of `jitter_buffer.c`). -/
def put_init (jb : JitterBuffer) (rtp : RtpHeader) (now : Nat) : JitterBuffer :=
  if jb.seq_initialized then jb
  else
    { jb with next_seq := rtp.sequence, seq_initialized := true,
              base_timestamp := rtp.timestamp, base_time := now,
              time_initialized := true }

/-- `JitterBuffer_Put` (body under the mutex, after the null checks; the
`update_jitter` call touches only the omitted float EMA fields).  `now`
models `GetTickCount64Ms()`.  Returns the C return code and the updated
buffer. -/
def JitterBuffer_Put (jb : JitterBuffer) (rtp : RtpHeader) (payload : List Nat)
    (payload_len : Nat) (now : Nat) : Int × JitterBuffer :=
  if payload_len = 0 then (-1, jb)
  else
    let jb := put_init jb rtp now
    let slot_idx := find_slot_for_seq jb rtp.sequence
    if slot_idx = -1 then
      (-2, { jb with stats :=
        { jb.stats with packets_late := (jb.stats.packets_late + 1) % U32 } })
    else if slot_idx = -2 then
      (-3, { jb with stats :=
        { jb.stats with overruns := (jb.stats.overruns + 1) % U32 } })
    else
      let idx := slot_idx.toNat
      let slot := jb.slots.getD idx default
      if slot.state ≠ 0 ∧ slot.sequence = rtp.sequence then (0, jb)
      else
        let jb :=
          if seq_compare rtp.sequence jb.next_seq ≠ 0 ∧ 0 < jb.count then
            { jb with stats := { jb.stats with
                packets_reorder := (jb.stats.packets_reorder + 1) % U32 } }
          else jb
        let plen := min payload_len OPUS_MAX_PACKET
        let newSlot : JitterSlot :=
          { state := 1, sequence := rtp.sequence, timestamp := rtp.timestamp,
            ssrc := rtp.ssrc, payload_len := plen, payload := payload.take plen,
            decoded := slot.decoded, decoded_samples := 0, recv_time := now }
        (0, { jb with
                slots := jb.slots.set idx newSlot,
                count := jb.count + 1,
                stats := { jb.stats with
                  packets_received := (jb.stats.packets_received + 1) % U32 } })

/-- The C entry point `JitterBuffer_Put` with its null-pointer guards:
`NULL` arguments are `none`.  Returns the C return code and the (possibly
unchanged) buffer. -/
def JitterBuffer_PutC (jb : Option JitterBuffer) (rtp : Option RtpHeader)
    (payload : Option (List Nat)) (payload_len : Nat) (now : Nat) :
    Int × Option JitterBuffer :=
  match jb, rtp, payload with
  | some jb', some rtp', some payload' =>
    if payload_len = 0 then (-1, some jb')
    else
      let r := JitterBuffer_Put jb' rtp' payload' payload_len now
      (r.1, some r.2)
  | _, _, _ => (-1, jb)

/-- `JitterBuffer_Get` (body under the mutex, after the null checks).
Returns the C return code, the PCM written to the caller's buffer, and the
updated jitter buffer. -/
def JitterBuffer_Get (jb : JitterBuffer) (max_samples : Nat) :
    Int × List Int × JitterBuffer :=
  if max_samples < AUDIO_FRAME_SAMPLES then (-1, [], jb)
  else if jb.seq_initialized = false then (0, [], jb)
  else if jb.count < 1 then (0, [], jb)
  else
    let slot := jb.slots.getD jb.head default
    if slot.state = 0 then
      -- expected packet missing: conceal, count underrun + loss
      let stats1 : JitterStats := { jb.stats with
        packets_lost := (jb.stats.packets_lost + 1) % U32,
        underruns := (jb.stats.underruns + 1) % U32 }
      let plc := plc_frame jb AUDIO_FRAME_SAMPLES
      -- the C float division `lost / (received + lost)` as an exact rational
      let stats2 :=
        if 0 < stats1.packets_received then
          { stats1 with
              loss_rate := mkRat (stats1.packets_lost : Int)
                (stats1.packets_received + stats1.packets_lost) }
        else stats1
      (plc.1, plc.2,
        { jb with
            stats := stats2,
            next_seq := (jb.next_seq + 1) % U16,
            head := (jb.head + 1) % JITTER_BUFFER_SLOTS })
    else
      let dec := if slot.state = 1 then decode_slot jb slot else (0, slot)
      if slot.state = 1 ∧ dec.1 < 0 then
        -- decode failure: conceal, drop the slot
        let plc := plc_frame jb AUDIO_FRAME_SAMPLES
        (plc.1, plc.2,
          { jb with
              slots := jb.slots.set jb.head { dec.2 with state := 0 },
              next_seq := (jb.next_seq + 1) % U16,
              head := (jb.head + 1) % JITTER_BUFFER_SLOTS,
              count := jb.count - 1 })
      else
        -- deliver the decoded samples and clear the slot
        let output : Int := min dec.2.decoded_samples (max_samples : Int)
        (output, dec.2.decoded.take output.toNat,
          { jb with
              slots := jb.slots.set jb.head { dec.2 with state := 0 },
              next_seq := (jb.next_seq + 1) % U16,
              head := (jb.head + 1) % JITTER_BUFFER_SLOTS,
              count := jb.count - 1 })

/-- `JitterBuffer_Reset`: clear every slot's state (other slot fields are
retained by the C code), rewind the ring and zero the statistics. -/
def JitterBuffer_Reset (jb : JitterBuffer) : JitterBuffer :=
  { jb with
      slots := jb.slots.map (fun s => { s with state := 0 }),
      head := 0, tail := 0, count := 0,
      seq_initialized := false, time_initialized := false,
      stats := JitterStats.zero }

/-!
## Operation sequences on one jitter buffer

The public entry points that mutate a `JitterBuffer` are `Put`, `Get`,
`Reset`, `SetDecoder` and `SetPlc`; a reachable state is the result of any
finite sequence of them starting from `JitterBuffer_Create`.
-/

/-- One call to a mutating `JitterBuffer` entry point. -/
inductive JBOp where
  | put (rtp : RtpHeader) (payload : List Nat) (payload_len : Nat) (now : Nat)
  | get (max_samples : Nat)
  | reset
  | setDecoder (has : Bool) (f : List Nat → Nat → Int × List Int)
  | setPlc (has : Bool) (f : Nat → Int × List Int)

/-- Apply one operation to the buffer, discarding the call's outputs. -/
def JBOp.apply (jb : JitterBuffer) : JBOp → JitterBuffer
  | .put r p l n => (JitterBuffer_Put jb r p l n).2
  | .get m => (JitterBuffer_Get jb m).2.2
  | .reset => JitterBuffer_Reset jb
  | .setDecoder h f => JitterBuffer_SetDecoder jb h f
  | .setPlc h f => JitterBuffer_SetPlc jb h f

/-- Run a call sequence from a given state. -/
def runOps (jb : JitterBuffer) (ops : List JBOp) : JitterBuffer :=
  ops.foldl JBOp.apply jb

/-- Well-formedness of one call: a `put`'s header fields carry values of
their C types (in particular `sequence : uint16_t`). -/
def JBOp.Wf : JBOp → Prop
  | .put r _ _ _ => r.Wf
  | _ => True

/-!
## Multi-stream jitter buffer (mixer)

From the second half of `jitter_buffer.c`.  A `StreamInfo` couples an
SSRC with its per-source `JitterBuffer` (the per-stream decoder pointer is
folded into that buffer's decoder model).
-/

/-- `StreamInfo` from `jitter_buffer.h`. -/
structure StreamInfo where
  ssrc : Nat
  jb : JitterBuffer
  last_active : Nat
  active : Bool

/-- `struct MultiStreamJitterBuffer` (the scratch mix buffers are locals
of the model; factories and config are omitted as they are not read by
`GetMixed`). -/
structure MultiStreamJB where
  max_streams : Nat
  streams : List StreamInfo

/-- The accumulation loop of `MultiStreamJB_GetMixed`:
`for j < got: mix_buffer[j] += stream_buffer[j]`. -/
def mixAcc (mix frame : List Int) (got : Nat) : List Int :=
  (List.range mix.length).map
    (fun j => if j < got then mix.getD j 0 + frame.getD j 0 else mix.getD j 0)

/-- The per-stream loop of `MultiStreamJB_GetMixed` (lines 594–609):
pull one frame from every active stream, accumulate it, and track the
longest frame.  Returns the accumulator, `output_samples`, and the
streams with their updated jitter buffers. -/
def getMixedLoop : List StreamInfo → List Int → Nat →
    List Int × Nat × List StreamInfo
  | [], mix, outS => (mix, outS, [])
  | s :: rest, mix, outS =>
    if s.active then
      let g := JitterBuffer_Get s.jb AUDIO_FRAME_SAMPLES
      let s' : StreamInfo := { s with jb := g.2.2 }
      if 0 < g.1 then
        let q := getMixedLoop rest (mixAcc mix g.2.1 g.1.toNat) (max outS g.1.toNat)
        (q.1, q.2.1, s' :: q.2.2)
      else
        let q := getMixedLoop rest mix outS
        (q.1, q.2.1, s' :: q.2.2)
    else
      let q := getMixedLoop rest mix outS
      (q.1, q.2.1, s :: q.2.2)

/-- The soft-clip of `MultiStreamJB_GetMixed`: clamp a 32-bit accumulator
sample to the `int16_t` range. -/
def clamp16 (v : Int) : Int :=
  if 32767 < v then 32767 else if v < -32768 then -32768 else v

/-- `MultiStreamJB_GetMixed` (body under the mixer mutex, after the null
checks).  Returns the C return value, the PCM written to the caller's
buffer, and the mixer with its updated streams. -/
def MultiStreamJB_GetMixed (msjb : MultiStreamJB) (max_samples : Nat) :
    Int × List Int × MultiStreamJB :=
  if max_samples < AUDIO_FRAME_SAMPLES then (-1, [], msjb)
  else
    let q := getMixedLoop msjb.streams (List.replicate AUDIO_FRAME_SAMPLES 0) 0
    let msjb' : MultiStreamJB := { msjb with streams := q.2.2 }
    if q.2.1 = 0 then (0, [], msjb')
    else
      let out_count := min q.2.1 max_samples
      ((out_count : Int),
       (List.range out_count).map (fun i => clamp16 (q.1.getD i 0)),
       msjb')

/-- The (return value, frame) pairs produced this call by the active
streams, in table order — the reference point for the mixing claim.
Each active stream's pull depends only on its own jitter buffer, so this
is exactly what the loop in `GetMixed` obtains. -/
def streamPulls (streams : List StreamInfo) : List (Int × List Int) :=
  streams.filterMap
    (fun s => if s.active then
        some ((JitterBuffer_Get s.jb AUDIO_FRAME_SAMPLES).1,
              (JitterBuffer_Get s.jb AUDIO_FRAME_SAMPLES).2.1)
      else none)

/-- Sample `i` of the un-clipped mix: the sum over all pulls whose frame
covers index `i`. -/
def mixSum (ps : List (Int × List Int)) (i : Nat) : Int :=
  (ps.map (fun p => if (i : Int) < p.1 then p.2.getD i 0 else 0)).sum

/-- Length of the longest frame produced (0 when none). -/
def maxGot (ps : List (Int × List Int)) : Nat :=
  (ps.map (fun p => p.1.toNat)).foldr max 0

/-- Contract of the codec callbacks installed in a jitter buffer,
mirroring their C types: the decoder is called with `frame_size = 960`
and reports at most that many samples, all written into the 960-sample
`int16_t` slot area; the PLC callback likewise fills its 960-sample
buffer and reports a non-negative count bounded by `frame_size`. -/
def DecWf (jb : JitterBuffer) : Prop :=
  (∀ p l, 0 < (jb.decode_func p l).1 →
      (jb.decode_func p l).1 ≤ (AUDIO_FRAME_SAMPLES : Int) ∧
      AUDIO_FRAME_SAMPLES ≤ (jb.decode_func p l).2.length) ∧
  (∀ n, 0 ≤ (jb.plc_func n).1 ∧ (jb.plc_func n).1 ≤ (n : Int) ∧
      n ≤ (jb.plc_func n).2.length)

/-!
## Server: UDP audio fan-out and the per-client TCP session machine

From `server.c`.
-/

/-- A socket address (`SOCKADDR_IN`): IPv4 address and port. -/
structure SessAddr where
  ip : Nat
  port : Nat
  deriving Repr, DecidableEq

/-- `ClientSession` from `server.c`.  `udp_addr = none` models the
zeroed (`memset`) address a fresh session starts with, before any
`JOIN_SESSION` forms it; the TCP receive buffer is not modelled (framing
is upstream of the handlers verified here). -/
structure ClientSession where
  client_id : Nat
  ssrc : Nat
  tcp_addr : SessAddr
  udp_addr : Option SessAddr
  udp_port : Nat
  last_heartbeat : Nat
  active : Bool
  audio_active : Bool
  is_talking : Bool
  is_muted : Bool
  deriving Repr, DecidableEq

/-- `BroadcastUdpAudio` from `server.c`: under the clients mutex, send the
packet to every active, audio-active session whose SSRC differs from
`exclude_ssrc`.  Modelled as the list of recipient sessions, in table
order. -/
def BroadcastUdpAudio (clients : List ClientSession) (exclude_ssrc : Nat) :
    List ClientSession :=
  clients.filter (fun c => c.active && c.audio_active && c.ssrc ≠ exclude_ssrc)

/-- The forwarding step of `UdpAudioThreadProc`: an RTP packet received on
the UDP audio socket is fanned out with `exclude_ssrc = rtp.ssrc`. -/
def UdpAudioForward (clients : List ClientSession) (rtp : RtpHeader) :
    List ClientSession :=
  BroadcastUdpAudio clients rtp.ssrc

/-- One TCP control message as seen by `HandleTcpPacket`.  `hello`'s
`fallback_id` models the `time(NULL) ^ (intptr_t)client` value used when
the client sends id 0. -/
inductive CtrlMsg where
  | hello (client_id : Nat) (fallback_id : Nat)
  | joinSession (local_udp_port : Nat)
  | leaveSession
  | heartbeat
  | audioStart
  | audioStop
  | audioMute
  | audioUnmute

/-- `HandleTcpPacket` from `server.c`, restricted to its effect on the
session record (the replies it sends and the fan-out notifications do not
change the session). -/
def HandleTcpPacket (s : ClientSession) : CtrlMsg → ClientSession
  | .hello cid fb =>
    let id := if cid ≠ 0 then cid else fb
    { s with client_id := id, ssrc := id }
  | .joinSession p =>
    { s with udp_port := p,
             udp_addr := some ⟨s.tcp_addr.ip, p⟩,
             audio_active := true }
  | .leaveSession => { s with audio_active := false }
  | .heartbeat => s
  | .audioStart => { s with audio_active := true }
  | .audioStop => { s with audio_active := false, is_talking := false }
  | .audioMute => { s with is_muted := true }
  | .audioUnmute => { s with is_muted := false }

/-- A freshly accepted session (`TcpAcceptThreadProc`): zeroed record with
the TCP peer address and `active` set. -/
def initSession (tcp : SessAddr) (now : Nat) : ClientSession :=
  { client_id := 0, ssrc := 0, tcp_addr := tcp, udp_addr := none,
    udp_port := 0, last_heartbeat := now, active := true,
    audio_active := false, is_talking := false, is_muted := false }

/-- Process a sequence of control messages on one session. -/
def runMsgs (s : ClientSession) (msgs : List CtrlMsg) : ClientSession :=
  msgs.foldl HandleTcpPacket s

/-- The session's UDP remote address is valid: formed from the TCP peer
IP and the client-stated UDP port, as `MSG_JOIN_SESSION` forms it. -/
def validUdp (s : ClientSession) : Prop :=
  s.udp_addr = some ⟨s.tcp_addr.ip, s.udp_port⟩

/-- Message orders in which no `AUDIO_START` arrives before the first
`JOIN_SESSION` (the flag tracks whether a join has been seen). -/
def okOrder : Bool → List CtrlMsg → Bool
  | _, [] => true
  | _, .joinSession _ :: ms => okOrder true ms
  | j, .audioStart :: ms => j && okOrder j ms
  | j, _ :: ms => okOrder j ms

/-!
## Client: discovery sweep

From `DiscoveryThreadProc` in `client.c`.
-/

/-- The payload of a `MSG_DISCOVERY_RESPONSE` (`protocol.h`); the name and
version strings are abstract tokens. -/
structure DiscoveryResponse where
  server_id : Nat
  server_name : Nat
  tcp_port : Nat
  audio_udp_port : Nat
  capability_flags : Nat
  current_peers : Nat
  max_peers : Nat
  deriving Repr, DecidableEq

/-- One valid discovery response as received during a sweep: the packet,
the sender's IP (from `recvfrom`) and the loop's current tick. -/
structure RespEvent where
  resp : DiscoveryResponse
  from_ip : Nat
  now : Nat
  deriving Repr, DecidableEq

/-- `ServerInfo` from `network.h`. -/
structure ServerInfo where
  server_id : Nat
  name : Nat
  ip : Nat
  tcp_port : Nat
  audio_udp_port : Nat
  capability_flags : Nat
  peer_count : Nat
  max_peers : Nat
  last_seen : Nat
  valid : Bool
  deriving Repr, DecidableEq

/-- The directory entry written (fields copied from the response) for an
event, as in `client.c` lines 546–555. -/
def mkInfo (e : RespEvent) : ServerInfo :=
  { server_id := e.resp.server_id, name := e.resp.server_name,
    ip := e.from_ip, tcp_port := e.resp.tcp_port,
    audio_udp_port := e.resp.audio_udp_port,
    capability_flags := e.resp.capability_flags,
    peer_count := e.resp.current_peers, max_peers := e.resp.max_peers,
    last_seen := e.now, valid := true }

/-- The linear scan of `DiscoveryThreadProc`: overwrite the first entry
whose `server_id` matches, or report `none` when no entry matches. -/
def updateEntry : List ServerInfo → RespEvent → Option (List ServerInfo)
  | [], _ => none
  | s :: rest, e =>
    if s.server_id = e.resp.server_id then some (mkInfo e :: rest)
    else
      match updateEntry rest e with
      | some r => some (s :: r)
      | none => none

/-- Handling of one valid response: update in place (no notification), or
append when below `MAX_SERVERS` (and notify `onServerFound`), or drop.
Returns the directory and whether `onServerFound` fired. -/
def applyResp (dir : List ServerInfo) (e : RespEvent) :
    List ServerInfo × Bool :=
  match updateEntry dir e with
  | some d => (d, false)
  | none =>
    if dir.length < MAX_SERVERS then (dir ++ [mkInfo e], true)
    else (dir, false)

/-- Fold a sweep's responses into a directory, collecting the
`server_id`s for which `onServerFound` fired, in firing order. -/
def sweepAux : List ServerInfo → List RespEvent → List ServerInfo × List Nat
  | dir, [] => (dir, [])
  | dir, e :: es =>
    let a := applyResp dir e
    let q := sweepAux a.1 es
    (q.1, (if a.2 then [e.resp.server_id] else []) ++ q.2)

/-- One discovery sweep: the directory is cleared (`server_count = 0`)
when the broadcast is sent, then the sweep's responses are folded in. -/
def sweep (events : List RespEvent) : List ServerInfo × List Nat :=
  sweepAux [] events

/-- The last response carrying server id `v` within a sweep's event
list, if any — the response whose fields a directory entry for `v` must
hold after the sweep, since every later duplicate overwrites the entry. -/
def lastRespFor (evs : List RespEvent) (v : Nat) : Option RespEvent :=
  match evs with
  | [] => none
  | e :: es =>
    match lastRespFor es v with
    | some r => some r
    | none => if e.resp.server_id = v then some e else none

/-!
## Reachability invariant for the jitter ring (claim C4)
-/

/-- A non-empty slot sits where the ring places its sequence number:
index ≡ `head + (sequence − next_seq)` (mod 16), and its sequence is a
`uint16_t` value. -/
def slotOk (head next_seq : Nat) (i : Nat) (s : JitterSlot) : Prop :=
  s.state ≠ 0 →
    s.sequence < U16 ∧
    i % JITTER_BUFFER_SLOTS =
      (head + s.sequence + U16 - next_seq) % JITTER_BUFFER_SLOTS

/-- Structural invariant of a jitter buffer, preserved by every
operation. -/
def JBInv (jb : JitterBuffer) : Prop :=
  jb.slots.length = JITTER_BUFFER_SLOTS ∧
  jb.head < JITTER_BUFFER_SLOTS ∧
  jb.next_seq < U16 ∧
  (jb.seq_initialized = false → ∀ s ∈ jb.slots, s.state = 0) ∧
  ∀ i < JITTER_BUFFER_SLOTS, slotOk jb.head jb.next_seq i (jb.slots.getD i default)

/-!
## Concrete instances used by counterexamples and witnesses
-/

/-- A buffer that has accepted one packet with sequence 0 (so its
sequence tracking is initialized, `next_seq = 0`, `head = 0`, and slot 0
is FILLED with payload `[1]`). -/
def c1jb : JitterBuffer :=
  (JitterBuffer_Put JitterBuffer_Create ⟨0, 0, 7⟩ [1] 1 0).2

/-- A decoder model that always succeeds with a 960-sample silent frame. -/
def decOkFn : List Nat → Nat → Int × List Int :=
  fun _ _ => (960, List.replicate 960 0)

/-- A decoder model that always fails (returns a negative count). -/
def decFailFn : List Nat → Nat → Int × List Int :=
  fun _ _ => (-1, List.replicate 960 0)

/-- A decoder model that always succeeds with a 960-sample constant
frame of amplitude `v`. -/
def decConstFn (v : Int) : List Nat → Nat → Int × List Int :=
  fun _ _ => (960, List.replicate 960 v)

/-- The C3 counterexample run: packets 0, 2, 3 arrive (packet 1 is
lost), interleaved with four Get calls; the last Get decodes packet 3. -/
def c3jb : JitterBuffer :=
  runOps (JitterBuffer_SetDecoder JitterBuffer_Create true decOkFn)
    [.put ⟨0, 0, 7⟩ [1] 1 0, .get 960,
     .put ⟨2, 0, 7⟩ [1] 1 0, .get 960, .get 960,
     .put ⟨3, 0, 7⟩ [1] 1 0, .get 960]

/-- A buffer whose decoder always fails, holding one FILLED packet at the
head slot. -/
def c5jb : JitterBuffer :=
  (JitterBuffer_Put (JitterBuffer_SetDecoder JitterBuffer_Create true decFailFn)
    ⟨0, 0, 7⟩ [1] 1 0).2

/-- A primed buffer with a claimed occupancy but an EMPTY head slot
(the underrun configuration). -/
def jbUnderrun : JitterBuffer :=
  { JitterBuffer_Create with
      seq_initialized := true, count := 1,
      stats := { JitterStats.zero with packets_received := 1 } }

/-- A stream whose next Get yields a 960-sample constant frame of
amplitude `v`. -/
def constStream (ssrc : Nat) (v : Int) : StreamInfo :=
  { ssrc := ssrc,
    jb := (JitterBuffer_Put
            (JitterBuffer_SetDecoder JitterBuffer_Create true (decConstFn v))
            ⟨0, 0, ssrc⟩ [1] 1 0).2,
    last_active := 0, active := true }

/-- Two active streams both about to produce constant 10000 frames. -/
def msjbTwo : MultiStreamJB :=
  { max_streams := 16, streams := [constStream 1 10000, constStream 2 10000] }

/-- 33 discovery responses from 33 distinct servers (one more than
`MAX_SERVERS`). -/
def manyEvents : List RespEvent :=
  (List.range 33).map (fun i => { resp := ⟨i, 0, 0, 0, 0, 0, 0⟩, from_ip := 0, now := 0 })

/-- Two responses from the same server id 5 within one sweep. -/
def dupEvents : List RespEvent :=
  [{ resp := ⟨5, 0, 0, 0, 0, 0, 0⟩, from_ip := 0, now := 0 },
   { resp := ⟨5, 1, 2, 3, 4, 5, 6⟩, from_ip := 9, now := 1 }]

/-- A primed buffer with an empty ring (`count = 0`): one packet was
received and already consumed. -/
def c2jb : JitterBuffer :=
  runOps JitterBuffer_Create [.put ⟨0, 0, 7⟩ [1] 1 0, .get 960]

/-!
## Shared list helpers
-/

theorem getD_set_self (l : List α) (i : Nat) (a d : α) (h : i < l.length) :
    (l.set i a).getD i d = a := by
  simp [List.getD_eq_getElem?_getD, List.getElem?_set_self, h]

theorem getD_set_ne (l : List α) (i j : Nat) (a d : α) (h : i ≠ j) :
    (l.set i a).getD j d = l.getD j d := by
  simp [List.getD_eq_getElem?_getD, List.getElem?_set_ne, h]

theorem getD_replicate (n i : Nat) (a d : α) (h : i < n) :
    (List.replicate n a).getD i d = a := by
  simp [List.getD_eq_getElem?_getD, List.getElem?_replicate, h]

theorem getD_lt_eq_getElem (l : List α) (i : Nat) (d : α) (h : i < l.length) :
    l.getD i d = l[i] := by
  simp [List.getD_eq_getElem?_getD, List.getElem?_eq_getElem, h]

/-!
## Claim C10 — null-argument guard of JitterBuffer_Put
-/

/-- C10: a call to `JitterBuffer_Put` with a NULL buffer handle, NULL RTP
header, NULL payload pointer, or `payload_len = 0` returns `-1` and
leaves the jitter buffer (slots, counters, sequence tracking, statistics)
completely unchanged. -/
theorem put_null_guard (jbo : Option JitterBuffer) (rtp : Option RtpHeader)
    (payload : Option (List Nat)) (payload_len now : Nat)
    (h : jbo = none ∨ rtp = none ∨ payload = none ∨ payload_len = 0) :
    JitterBuffer_PutC jbo rtp payload payload_len now = (-1, jbo) := by
  cases jbo <;> cases rtp <;> cases payload <;>
    simp_all [JitterBuffer_PutC]

/-- Witness for `put_null_guard` at a concrete input (NULL RTP header). -/
theorem put_null_guard_witness :
    ((some JitterBuffer_Create : Option JitterBuffer) = none ∨
      (none : Option RtpHeader) = none ∨
      (some [(1 : Nat)] : Option (List Nat)) = none ∨ (3 : Nat) = 0) ∧
    JitterBuffer_PutC (some JitterBuffer_Create) none (some [1]) 3 0 =
      (-1, some JitterBuffer_Create) :=
  ⟨Or.inr (Or.inl rfl),
   put_null_guard (some JitterBuffer_Create) none (some [1]) 3 0
     (Or.inr (Or.inl rfl))⟩

/-!
## Claim C7 — UDP audio fan-out excludes by SSRC
-/

/-- C7: the RTP packet received on the server's UDP audio socket is
forwarded to exactly those client sessions that are active, have
`audio_active` set, and whose SSRC differs from the packet's SSRC; in
particular no recipient carries the packet's own SSRC. -/
theorem udp_fanout_recipients (clients : List ClientSession) (rtp : RtpHeader)
    (c : ClientSession) :
    c ∈ UdpAudioForward clients rtp ↔
      c ∈ clients ∧ c.active = true ∧ c.audio_active = true ∧ c.ssrc ≠ rtp.ssrc := by
  simp [UdpAudioForward, BroadcastUdpAudio, List.mem_filter, and_assoc]

/-!
## Claim C8 — audio_active implies a formed UDP remote address
-/

/-- The session step never touches the TCP peer address, and only
`JOIN_SESSION` touches the UDP address and port. -/
theorem handle_preserves_validUdp (s : ClientSession) (m : CtrlMsg)
    (h : validUdp s) : validUdp (HandleTcpPacket s m) := by
  cases m <;> simp_all [HandleTcpPacket, validUdp]

/-- C8 counterexample: an `AUDIO_START` received before any
`JOIN_SESSION` sets `audio_active` while the UDP remote address is still
the zeroed (never formed) address, refuting the claimed invariant for
arbitrary message orders. -/
theorem session_audio_active_without_udp :
    (runMsgs (initSession ⟨1, 2⟩ 0) [CtrlMsg.audioStart]).audio_active = true ∧
    (runMsgs (initSession ⟨1, 2⟩ 0) [CtrlMsg.audioStart]).udp_addr = none := by
  exact ⟨rfl, rfl⟩

/-- Invariant carried through a message sequence: if a join has been seen
(`j = true`) the UDP address is valid, and `audio_active` implies it. -/
theorem run_okOrder_inv (msgs : List CtrlMsg) :
    ∀ (s : ClientSession) (j : Bool), okOrder j msgs = true →
      (j = true → validUdp s) → (s.audio_active = true → validUdp s) →
      ((runMsgs s msgs).audio_active = true → validUdp (runMsgs s msgs)) := by
  induction msgs with
  | nil => intro s j _ _ h3; exact h3
  | cons m ms ih =>
    intro s j hok h2 h3
    cases m with
    | hello cid fb =>
      refine ih _ j hok ?_ ?_ <;>
        simp_all [okOrder, runMsgs, HandleTcpPacket, validUdp]
    | joinSession p =>
      refine ih _ true ?_ ?_ ?_ <;>
        simp_all [okOrder, runMsgs, HandleTcpPacket, validUdp]
    | leaveSession =>
      refine ih _ j hok ?_ ?_ <;>
        simp_all [okOrder, runMsgs, HandleTcpPacket, validUdp]
    | heartbeat =>
      refine ih _ j hok ?_ ?_ <;>
        simp_all [okOrder, runMsgs, HandleTcpPacket, validUdp]
    | audioStart =>
      have hj : j = true ∧ okOrder j ms = true := by
        simpa [okOrder, Bool.and_eq_true] using hok
      refine ih _ j hj.2 ?_ ?_ <;>
        simp_all [runMsgs, HandleTcpPacket, validUdp]
    | audioStop =>
      refine ih _ j hok ?_ ?_ <;>
        simp_all [okOrder, runMsgs, HandleTcpPacket, validUdp]
    | audioMute =>
      refine ih _ j hok ?_ ?_ <;>
        simp_all [okOrder, runMsgs, HandleTcpPacket, validUdp]
    | audioUnmute =>
      refine ih _ j hok ?_ ?_ <;>
        simp_all [okOrder, runMsgs, HandleTcpPacket, validUdp]

/-- C8 amended: in every state of a server-side session reachable by a
TCP control-message order in which no `AUDIO_START` precedes the first
`JOIN_SESSION`, if `audio_active` is set then the UDP remote address has
been formed from the TCP peer IP and the client-stated UDP port.  (The
unconditional claim fails: see `session_audio_active_without_udp`.) -/
theorem session_audio_active_udp_valid (tcp : SessAddr) (now : Nat)
    (msgs : List CtrlMsg) (hok : okOrder false msgs = true)
    (hact : (runMsgs (initSession tcp now) msgs).audio_active = true) :
    validUdp (runMsgs (initSession tcp now) msgs) := by
  refine run_okOrder_inv msgs (initSession tcp now) false hok ?_ ?_ hact
  · intro h; cases h
  · intro h; simp [initSession] at h

/-- Witness for `session_audio_active_udp_valid`: a session that joins
with UDP port 7 has its UDP remote address formed from the TCP peer IP
and that port. -/
theorem session_audio_active_udp_valid_witness :
    okOrder false [CtrlMsg.joinSession 7] = true ∧
    (runMsgs (initSession ⟨1, 2⟩ 0) [CtrlMsg.joinSession 7]).audio_active = true ∧
    validUdp (runMsgs (initSession ⟨1, 2⟩ 0) [CtrlMsg.joinSession 7]) :=
  ⟨rfl, rfl, session_audio_active_udp_valid ⟨1, 2⟩ 0 [CtrlMsg.joinSession 7] rfl rfl⟩

/-!
## Claim C1 — Put's distance window
-/

theorem put_init_of_inited (jb : JitterBuffer) (rtp : RtpHeader) (now : Nat)
    (h : jb.seq_initialized = true) : put_init jb rtp now = jb := by
  simp [put_init, h]

theorem find_slot_eq_of_inited (jb : JitterBuffer) (seq : Nat)
    (h : jb.seq_initialized = true) :
    find_slot_for_seq jb seq =
      if seq_distance jb.next_seq seq < -8 then -1
      else if 16 ≤ seq_distance jb.next_seq seq then -2
      else ((((jb.head : Int) + seq_distance jb.next_seq seq + 16).toNat % 16 : Nat) : Int) := by
  simp [find_slot_for_seq, h, JITTER_BUFFER_SLOTS]

/-- C1 amended: for a Put into a buffer with initialized sequence
tracking, with `d` the signed 16-bit difference `seq - next_seq`:
if `d < -8` the packet is dropped and `packets_late` is incremented; if
`d ≥ 16` it is dropped and `overruns` is incremented; otherwise, with
`k = (head + d) mod 16` the target ring slot, a packet whose sequence
already occupies slot `k` is ignored as a duplicate (the incoming payload
is NOT stored — this is the correction to the claim), and in all other
cases the payload is stored at slot `k`. -/
theorem put_distance_cases (jb : JitterBuffer) (rtp : RtpHeader)
    (payload : List Nat) (payload_len now : Nat) (d : Int) (k : Nat)
    (hlen0 : payload_len ≠ 0) (hinit : jb.seq_initialized = true)
    (hslots : jb.slots.length = 16)
    (hd : d = seq_distance jb.next_seq rtp.sequence)
    (hk : k = (((jb.head : Int) + d) % 16).toNat) :
    (d < -8 →
      JitterBuffer_Put jb rtp payload payload_len now =
        (-2, { jb with stats := { jb.stats with
                packets_late := (jb.stats.packets_late + 1) % U32 } })) ∧
    (16 ≤ d →
      JitterBuffer_Put jb rtp payload payload_len now =
        (-3, { jb with stats := { jb.stats with
                overruns := (jb.stats.overruns + 1) % U32 } })) ∧
    (-8 ≤ d → d < 16 →
      ((jb.slots.getD k default).state ≠ 0 ∧
          (jb.slots.getD k default).sequence = rtp.sequence →
        JitterBuffer_Put jb rtp payload payload_len now = (0, jb)) ∧
      (¬((jb.slots.getD k default).state ≠ 0 ∧
          (jb.slots.getD k default).sequence = rtp.sequence) →
        (JitterBuffer_Put jb rtp payload payload_len now).1 = 0 ∧
        ((JitterBuffer_Put jb rtp payload payload_len now).2.slots.getD k default).state = 1 ∧
        ((JitterBuffer_Put jb rtp payload payload_len now).2.slots.getD k default).sequence
          = rtp.sequence ∧
        ((JitterBuffer_Put jb rtp payload payload_len now).2.slots.getD k default).payload
          = payload.take (min payload_len OPUS_MAX_PACKET) ∧
        (JitterBuffer_Put jb rtp payload payload_len now).2.stats.packets_received
          = (jb.stats.packets_received + 1) % U32 ∧
        ∀ i, i ≠ k →
          (JitterBuffer_Put jb rtp payload payload_len now).2.slots.getD i default
            = jb.slots.getD i default)) := by
  have hpi : put_init jb rtp now = jb := put_init_of_inited jb rtp now hinit
  have hfs := find_slot_eq_of_inited jb rtp.sequence hinit
  rw [← hd] at hfs
  refine ⟨?_, ?_, ?_⟩
  · intro h1
    simp [JitterBuffer_Put, hlen0, hpi, hfs, h1]
  · intro h2
    have h1 : ¬ d < -8 := by omega
    simp [JitterBuffer_Put, hlen0, hpi, hfs, h1, h2]
  · intro h3 h4
    have h1 : ¬ d < -8 := by omega
    have h2 : ¬ 16 ≤ d := by omega
    have hk' : (((jb.head : Int) + d + 16).toNat % 16) = k := by omega
    have hklt : k < 16 := by omega
    have hne1 : ((((jb.head : Int) + d + 16).toNat % 16 : Nat) : Int) ≠ -1 := by omega
    have hne2 : ((((jb.head : Int) + d + 16).toNat % 16 : Nat) : Int) ≠ -2 := by omega
    have htn : ((((jb.head : Int) + d + 16).toNat % 16 : Nat) : Int).toNat = k := by omega
    have hklen : k < jb.slots.length := by rw [hslots]; exact hklt
    have hgs : ∀ ns : JitterSlot, (jb.slots.set k ns).getD k default = ns :=
      fun ns => getD_set_self jb.slots k ns default hklen
    have hgn : ∀ (ns : JitterSlot) (i : Nat), i ≠ k →
        (jb.slots.set k ns).getD i default = jb.slots.getD i default :=
      fun ns i hi => getD_set_ne jb.slots k i ns default (Ne.symm hi)
    constructor
    · intro hdup
      simp only [JitterBuffer_Put, if_neg hlen0, hpi, hfs, if_neg h1, if_neg h2,
        if_neg hne1, if_neg hne2, htn, if_pos hdup]
    · intro hdup
      simp only [JitterBuffer_Put, if_neg hlen0, hpi, hfs, if_neg h1, if_neg h2,
        if_neg hne1, if_neg hne2, htn, if_neg hdup]
      split_ifs <;>
        exact ⟨by trivial, congrArg JitterSlot.state (hgs _),
               congrArg JitterSlot.sequence (hgs _),
               congrArg JitterSlot.payload (hgs _), by trivial,
               fun i hi => hgn _ i hi⟩

/-- C1 counterexample: a duplicate packet (same sequence, new payload
`[2]`) falls in the window (`d = 0`) but its payload is NOT stored at
slot `(head + d) mod 16`: the slot keeps payload `[1]` and
`packets_received` does not change, refuting the claim's unconditional
"otherwise the payload is stored" branch. -/
theorem put_duplicate_not_stored :
    c1jb.seq_initialized = true ∧
    seq_distance c1jb.next_seq 0 = 0 ∧
    ((JitterBuffer_Put c1jb ⟨0, 0, 7⟩ [2] 1 0).2.slots.getD
        (((c1jb.head : Int) + seq_distance c1jb.next_seq 0) % 16).toNat
        default).payload = [1] ∧
    [2].take (min 1 OPUS_MAX_PACKET) = [2] ∧
    (JitterBuffer_Put c1jb ⟨0, 0, 7⟩ [2] 1 0).2.stats.packets_received =
      c1jb.stats.packets_received := by
  decide

/-- Witness for `put_distance_cases`: storing sequence 1 (distance 1)
into `c1jb` places it at slot 1. -/
theorem put_distance_cases_witness :
    ((1 : Nat) ≠ 0) ∧ c1jb.seq_initialized = true ∧ c1jb.slots.length = 16 ∧
    ((1 : Int) = seq_distance c1jb.next_seq 1) ∧
    ((1 : Nat) = (((c1jb.head : Int) + 1) % 16).toNat) ∧
    ((JitterBuffer_Put c1jb ⟨1, 0, 7⟩ [9] 1 0).2.slots.getD 1 default).sequence = 1 :=
  ⟨by decide, by decide, by decide, by decide, by decide,
   ((((put_distance_cases c1jb ⟨1, 0, 7⟩ [9] 1 0 1 1 (by decide) (by decide)
        (by decide) (by decide) (by decide)).2.2 (by decide) (by decide)).2
        (by decide)).2.2.1)⟩

/-!
## Claim C2 — Get on an unprimed buffer / on an empty head slot
-/

/-- C2 amended: a Get on a never-primed buffer returns 0; a Get on a
primed buffer that holds at least one packet (`count ≥ 1` — this guard is
the correction: with the ring empty, Get returns 0 without concealing)
whose head slot is EMPTY counts the loss and the underrun, produces one
concealment frame via the PLC entry point (silence when no PLC is set),
advances head and `next_seq` by one, and returns that frame. -/
theorem get_unprimed_or_underrun (jb : JitterBuffer) (max : Nat)
    (hmax : AUDIO_FRAME_SAMPLES ≤ max) :
    (jb.seq_initialized = false → JitterBuffer_Get jb max = (0, [], jb)) ∧
    (jb.seq_initialized = true → 1 ≤ jb.count →
      (jb.slots.getD jb.head default).state = 0 →
      (JitterBuffer_Get jb max).1 = (plc_frame jb AUDIO_FRAME_SAMPLES).1 ∧
      (JitterBuffer_Get jb max).2.1 = (plc_frame jb AUDIO_FRAME_SAMPLES).2 ∧
      (jb.hasPlc = true →
        (JitterBuffer_Get jb max).1 = (jb.plc_func AUDIO_FRAME_SAMPLES).1 ∧
        (JitterBuffer_Get jb max).2.1 = (jb.plc_func AUDIO_FRAME_SAMPLES).2) ∧
      (jb.hasPlc = false →
        (JitterBuffer_Get jb max).1 = (AUDIO_FRAME_SAMPLES : Int) ∧
        (JitterBuffer_Get jb max).2.1 = List.replicate AUDIO_FRAME_SAMPLES 0) ∧
      (JitterBuffer_Get jb max).2.2.stats.packets_lost =
        (jb.stats.packets_lost + 1) % U32 ∧
      (JitterBuffer_Get jb max).2.2.stats.underruns =
        (jb.stats.underruns + 1) % U32 ∧
      (JitterBuffer_Get jb max).2.2.head = (jb.head + 1) % JITTER_BUFFER_SLOTS ∧
      (JitterBuffer_Get jb max).2.2.next_seq = (jb.next_seq + 1) % U16) := by
  have h1 : ¬ (max < AUDIO_FRAME_SAMPLES) := not_lt.mpr hmax
  constructor
  · intro h
    simp [JitterBuffer_Get, h1, h]
  · intro hp hcnt hslot
    have h2 : ¬ (jb.seq_initialized = false) := by simp [hp]
    have h3 : ¬ (jb.count < 1) := by omega
    simp only [JitterBuffer_Get, if_neg h1, if_neg h2, if_neg h3, if_pos hslot]
    refine ⟨by trivial, by trivial, fun hplc => ⟨?_, ?_⟩, fun hplc => ⟨?_, ?_⟩,
            ?_, ?_, by trivial, by trivial⟩
    · simp [plc_frame, hplc]
    · simp [plc_frame, hplc]
    · simp [plc_frame, hplc]
    · simp [plc_frame, hplc]
    · split_ifs <;> rfl
    · split_ifs <;> rfl

/-- C2 counterexample: a reachable primed buffer whose head slot is EMPTY
but whose ring is empty (`count = 0`): Get returns 0 and does not count a
loss, conceal, or advance, refuting the claim's unconditional
"primed and head slot EMPTY" case. -/
theorem get_primed_empty_returns_zero :
    c2jb.seq_initialized = true ∧
    (c2jb.slots.getD c2jb.head default).state = 0 ∧
    c2jb.count = 0 ∧
    (JitterBuffer_Get c2jb 960).1 = 0 ∧
    (JitterBuffer_Get c2jb 960).2.2.stats.packets_lost = 0 ∧
    (JitterBuffer_Get c2jb 960).2.2.stats.underruns = 0 ∧
    (JitterBuffer_Get c2jb 960).2.2.head = c2jb.head ∧
    (JitterBuffer_Get c2jb 960).2.2.next_seq = c2jb.next_seq := by
  decide

/-- Witness for `get_unprimed_or_underrun`: the underrun path on
`jbUnderrun` counts one lost packet. -/
theorem get_unprimed_or_underrun_witness :
    AUDIO_FRAME_SAMPLES ≤ 960 ∧ jbUnderrun.seq_initialized = true ∧
    1 ≤ jbUnderrun.count ∧
    (jbUnderrun.slots.getD jbUnderrun.head default).state = 0 ∧
    (JitterBuffer_Get jbUnderrun 960).2.2.stats.packets_lost =
      (jbUnderrun.stats.packets_lost + 1) % U32 :=
  ⟨by decide, by decide, by decide, by decide,
   (((get_unprimed_or_underrun jbUnderrun 960 (by decide)).2 (by decide)
      (by decide) (by decide)).2.2.2.2.1)⟩

/-!
## Claim C3 — when Get recomputes loss_rate
-/

/-- C3 amended: `loss_rate` is recomputed by Get only on the underrun
(concealment) path and only when `packets_received > 0`; at such a Get it
equals `packets_lost / (packets_received + packets_lost)` over the
post-call counters.  Every other Get path leaves `loss_rate` unchanged —
so after a Get that delivers a decoded frame the stored ratio can be
stale (see the counterexample). -/
theorem get_loss_rate_paths (jb : JitterBuffer) (max : Nat) :
    ((AUDIO_FRAME_SAMPLES ≤ max ∧ jb.seq_initialized = true ∧ 1 ≤ jb.count ∧
      (jb.slots.getD jb.head default).state = 0 ∧
      0 < jb.stats.packets_received) →
      (JitterBuffer_Get jb max).2.2.stats.loss_rate =
        ((JitterBuffer_Get jb max).2.2.stats.packets_lost : ℚ) /
        (((JitterBuffer_Get jb max).2.2.stats.packets_received +
          (JitterBuffer_Get jb max).2.2.stats.packets_lost : Nat) : ℚ)) ∧
    (¬(AUDIO_FRAME_SAMPLES ≤ max ∧ jb.seq_initialized = true ∧ 1 ≤ jb.count ∧
      (jb.slots.getD jb.head default).state = 0 ∧
      0 < jb.stats.packets_received) →
      (JitterBuffer_Get jb max).2.2.stats.loss_rate = jb.stats.loss_rate) := by
  constructor
  · rintro ⟨hmax, hp, hcnt, hslot, hrecv⟩
    have h1 : ¬ (max < AUDIO_FRAME_SAMPLES) := not_lt.mpr hmax
    have h2 : ¬ (jb.seq_initialized = false) := by simp [hp]
    have h3 : ¬ (jb.count < 1) := by omega
    simp only [JitterBuffer_Get, if_neg h1, if_neg h2, if_neg h3, if_pos hslot]
    split_ifs <;> simp_all [Rat.mkRat_eq_div] <;> norm_cast
  · intro hn
    by_cases q1 : max < AUDIO_FRAME_SAMPLES
    · simp [JitterBuffer_Get, q1]
    by_cases q2 : jb.seq_initialized = false
    · simp [JitterBuffer_Get, q1, q2]
    by_cases q3 : jb.count < 1
    · simp [JitterBuffer_Get, q1, q2, q3]
    have hp : jb.seq_initialized = true := by
      revert q2; cases jb.seq_initialized <;> simp
    by_cases q4 : (jb.slots.getD jb.head default).state = 0
    · have hrecv : ¬ 0 < jb.stats.packets_received := fun hr =>
        hn ⟨by omega, hp, by omega, q4, hr⟩
      simp only [JitterBuffer_Get, if_neg q1, if_neg q2, if_neg q3, if_pos q4]
      split_ifs with h <;> first | rfl | exact absurd h hrecv
    · simp only [JitterBuffer_Get, if_neg q1, if_neg q2, if_neg q3, if_neg q4]
      split_ifs <;> rfl

/-- C3 counterexample: after the final Get of the `c3jb` run (which
delivers a decoded frame), the stored `loss_rate` is the stale 1/3
computed two calls earlier, while the counters say 1/4 — refuting the
claim that the equality holds after every Get. -/
theorem loss_rate_stale_after_get :
    c3jb.stats.packets_lost = 1 ∧
    c3jb.stats.packets_received = 3 ∧
    c3jb.stats.loss_rate = mkRat 1 3 ∧
    c3jb.stats.loss_rate ≠ (c3jb.stats.packets_lost : ℚ) /
      ((c3jb.stats.packets_received + c3jb.stats.packets_lost : Nat) : ℚ) := by
  have h1 : c3jb.stats.packets_lost = 1 := by decide
  have h2 : c3jb.stats.packets_received = 3 := by decide
  have h3 : c3jb.stats.loss_rate = mkRat 1 3 := by decide
  refine ⟨h1, h2, h3, ?_⟩
  rw [h1, h2, h3, Rat.mkRat_eq_div]
  norm_num

/-- Witness for `get_loss_rate_paths`: the underrun path on `jbUnderrun`
establishes the exact ratio. -/
theorem get_loss_rate_paths_witness :
    (AUDIO_FRAME_SAMPLES ≤ 960 ∧ jbUnderrun.seq_initialized = true ∧
      1 ≤ jbUnderrun.count ∧
      (jbUnderrun.slots.getD jbUnderrun.head default).state = 0 ∧
      0 < jbUnderrun.stats.packets_received) ∧
    (JitterBuffer_Get jbUnderrun 960).2.2.stats.loss_rate =
      ((JitterBuffer_Get jbUnderrun 960).2.2.stats.packets_lost : ℚ) /
      (((JitterBuffer_Get jbUnderrun 960).2.2.stats.packets_received +
        (JitterBuffer_Get jbUnderrun 960).2.2.stats.packets_lost : Nat) : ℚ) :=
  ⟨by decide, (get_loss_rate_paths jbUnderrun 960).1 (by decide)⟩

/-!
## Claim C5 — Get on a FILLED head slot: decode or conceal
-/

theorem decode_slot_pos (jb : JitterBuffer) (slot : JitterSlot)
    (dr : Int) (slot' : JitterSlot) (hstate : slot.state = 1)
    (hdec : decode_slot jb slot = (dr, slot')) (hpos : 0 < dr) :
    slot'.state = 2 ∧ dr = slot'.decoded_samples := by
  have hne : ¬ (slot.state ≠ 1) := by simp [hstate]
  simp only [decode_slot, if_neg hne] at hdec
  split_ifs at hdec with hdcf hr
  · simp only [Prod.mk.injEq] at hdec
    obtain ⟨h1, h2⟩ := hdec
    subst h1; subst h2
    exact ⟨rfl, rfl⟩
  · simp only [Prod.mk.injEq] at hdec
    omega
  · simp only [Prod.mk.injEq] at hdec
    omega

/-- C5 amended: for a Get on a primed, non-empty buffer whose head slot
is FILLED, the slot is decoded in place.  On success (positive decoder
return) the slot reaches DECODED and its samples are returned, the slot
is then cleared and head/`next_seq` advance.  On decoder failure the
frame is concealed: Get returns one PLC frame, the slot is cleared, head
and `next_seq` advance and `count` drops — but the loss statistics
(`packets_lost`, `loss_rate`, and all other counters) are left unchanged
(this is the correction: the claimed update of the loss statistics does
not happen). -/
theorem get_filled_head_paths (jb : JitterBuffer) (max : Nat)
    (dr : Int) (slot' : JitterSlot)
    (hmax : AUDIO_FRAME_SAMPLES ≤ max)
    (hp : jb.seq_initialized = true) (hcnt : 1 ≤ jb.count)
    (hstate : (jb.slots.getD jb.head default).state = 1)
    (hslots : jb.slots.length = 16) (hhead : jb.head < 16)
    (hdec : decode_slot jb (jb.slots.getD jb.head default) = (dr, slot')) :
    (dr < 0 →
      (JitterBuffer_Get jb max).1 = (plc_frame jb AUDIO_FRAME_SAMPLES).1 ∧
      (JitterBuffer_Get jb max).2.1 = (plc_frame jb AUDIO_FRAME_SAMPLES).2 ∧
      (JitterBuffer_Get jb max).2.2.slots.getD jb.head default =
        { slot' with state := 0 } ∧
      (JitterBuffer_Get jb max).2.2.head = (jb.head + 1) % JITTER_BUFFER_SLOTS ∧
      (JitterBuffer_Get jb max).2.2.next_seq = (jb.next_seq + 1) % U16 ∧
      (JitterBuffer_Get jb max).2.2.count = jb.count - 1 ∧
      (JitterBuffer_Get jb max).2.2.stats = jb.stats) ∧
    (0 < dr →
      slot'.state = 2 ∧ dr = slot'.decoded_samples ∧
      (JitterBuffer_Get jb max).1 = min slot'.decoded_samples (max : Int) ∧
      (JitterBuffer_Get jb max).2.1 =
        slot'.decoded.take (min slot'.decoded_samples (max : Int)).toNat ∧
      (JitterBuffer_Get jb max).2.2.slots.getD jb.head default =
        { slot' with state := 0 } ∧
      (JitterBuffer_Get jb max).2.2.head = (jb.head + 1) % JITTER_BUFFER_SLOTS ∧
      (JitterBuffer_Get jb max).2.2.next_seq = (jb.next_seq + 1) % U16 ∧
      (JitterBuffer_Get jb max).2.2.count = jb.count - 1 ∧
      (JitterBuffer_Get jb max).2.2.stats = jb.stats) := by
  have h1 : ¬ (max < AUDIO_FRAME_SAMPLES) := not_lt.mpr hmax
  have h2 : ¬ (jb.seq_initialized = false) := by simp [hp]
  have h3 : ¬ (jb.count < 1) := by omega
  have h4 : ¬ ((jb.slots.getD jb.head default).state = 0) := by omega
  have hklen : jb.head < jb.slots.length := by rw [hslots]; exact hhead
  have hgs : ∀ ns : JitterSlot,
      (jb.slots.set jb.head ns).getD jb.head default = ns :=
    fun ns => getD_set_self jb.slots jb.head ns default hklen
  constructor
  · intro hdr
    have hc : (jb.slots.getD jb.head default).state = 1 ∧ dr < 0 :=
      ⟨hstate, hdr⟩
    simp only [JitterBuffer_Get, if_neg h1, if_neg h2, if_neg h3, if_neg h4,
      if_pos hstate, hdec, if_pos hc]
    exact ⟨by trivial, by trivial, hgs _, by trivial, by trivial, by trivial,
           by trivial⟩
  · intro hdr
    obtain ⟨hs2, hds⟩ := decode_slot_pos jb _ dr slot' hstate hdec hdr
    have hc : ¬ ((jb.slots.getD jb.head default).state = 1 ∧ dr < 0) := by
      rintro ⟨-, hlt⟩; omega
    simp only [JitterBuffer_Get, if_neg h1, if_neg h2, if_neg h3, if_neg h4,
      if_pos hstate, hdec, if_neg hc]
    exact ⟨hs2, hds, by trivial, by trivial, hgs _, by trivial, by trivial,
           by trivial, by trivial⟩

/-- C5 counterexample: on `c5jb` (head slot FILLED, decoder fails) Get
conceals and drops the slot, but `packets_lost` and `loss_rate` are not
touched — the loss is NOT reflected in the loss statistics, refuting that
part of the claim. -/
theorem decode_failure_loss_not_counted :
    (c5jb.slots.getD c5jb.head default).state = 1 ∧
    (decode_slot c5jb (c5jb.slots.getD c5jb.head default)).1 < 0 ∧
    (JitterBuffer_Get c5jb 960).1 = 960 ∧
    (JitterBuffer_Get c5jb 960).2.2.stats.packets_lost = 0 ∧
    (JitterBuffer_Get c5jb 960).2.2.stats.loss_rate = 0 ∧
    (JitterBuffer_Get c5jb 960).2.2.stats.underruns = 0 := by
  decide

/-- Witness for `get_filled_head_paths` on `c5jb` (decoder-failure arm):
the statistics are untouched. -/
theorem get_filled_head_paths_witness :
    (AUDIO_FRAME_SAMPLES ≤ 960 ∧ c5jb.seq_initialized = true ∧
      1 ≤ c5jb.count ∧ (c5jb.slots.getD c5jb.head default).state = 1 ∧
      c5jb.slots.length = 16 ∧ c5jb.head < 16 ∧
      (decode_slot c5jb (c5jb.slots.getD c5jb.head default)).1 < 0) ∧
    (JitterBuffer_Get c5jb 960).2.2.stats = c5jb.stats :=
  ⟨by decide,
   ((get_filled_head_paths c5jb 960
      (decode_slot c5jb (c5jb.slots.getD c5jb.head default)).1
      (decode_slot c5jb (c5jb.slots.getD c5jb.head default)).2
      (by decide) (by decide) (by decide) (by decide) (by decide) (by decide)
      rfl).1 (by decide)).2.2.2.2.2.2⟩

/-!
## Claim C4 — no two slots hold the same sequence number

The inductive invariant: every non-EMPTY slot sits at the ring index
determined by its sequence number, `head` and `next_seq`.  Since `head`
and `next_seq` advance in lockstep and 2^16 is a multiple of 16, the
index of a given sequence value never changes, so two distinct non-EMPTY
slots always carry distinct sequence numbers.
-/

theorem seq_distance_self (a : Nat) : seq_distance a a = 0 := by
  simp only [seq_distance, toInt16, U16]
  split_ifs with h <;> omega

theorem seq_distance_index (head next seq : Nat)
    (h3 : -8 ≤ seq_distance next seq) (h4 : seq_distance next seq < 16) :
    (((head : Int) + seq_distance next seq + 16).toNat % 16) =
      (head + seq + U16 - next % U16) % 16 := by
  simp only [seq_distance, toInt16, U16] at h3 h4 ⊢
  split_ifs at h3 h4 ⊢ <;> omega

theorem slotOk_shift (head next : Nat) (i : Nat) (s : JitterSlot)
    (hH : head < JITTER_BUFFER_SLOTS) (hN : next < U16)
    (h : slotOk head next i s) :
    slotOk ((head + 1) % JITTER_BUFFER_SLOTS) ((next + 1) % U16) i s := by
  intro hs
  obtain ⟨h1, h2⟩ := h hs
  refine ⟨h1, ?_⟩
  simp only [JITTER_BUFFER_SLOTS, U16] at *
  omega

theorem jbinv_create : JBInv JitterBuffer_Create := by
  refine ⟨by simp [JitterBuffer_Create, JITTER_BUFFER_SLOTS], ?_, ?_, ?_, ?_⟩
  · simp [JitterBuffer_Create, JITTER_BUFFER_SLOTS]
  · simp [JitterBuffer_Create, U16]
  · intro _ s hs
    rw [List.eq_of_mem_replicate hs]
    rfl
  · intro i hi hstate
    have hzero : JitterBuffer_Create.slots.getD i default = JitterSlot.zero := by
      simp only [JitterBuffer_Create]
      exact getD_replicate _ _ _ _ hi
    rw [hzero] at hstate
    exact absurd rfl hstate

theorem jbinv_reset (jb : JitterBuffer) (hinv : JBInv jb) :
    JBInv (JitterBuffer_Reset jb) := by
  obtain ⟨hL, hH, hN, hE, hS⟩ := hinv
  refine ⟨by simp [JitterBuffer_Reset, hL], ?_, hN, ?_, ?_⟩
  · simp [JitterBuffer_Reset, JITTER_BUFFER_SLOTS]
  · intro _ s hs
    simp only [JitterBuffer_Reset, List.mem_map] at hs
    obtain ⟨a, -, ha⟩ := hs
    rw [← ha]
  · intro i hi hstate
    have hilen : i < (jb.slots.map fun s => { s with state := 0 }).length := by
      simp [hL]
      exact hi
    rw [show (JitterBuffer_Reset jb).slots
          = jb.slots.map (fun s => { s with state := 0 }) from rfl,
        getD_lt_eq_getElem _ _ _ hilen, List.getElem_map] at hstate
    exact absurd rfl hstate

theorem jbinv_put_inited (jb : JitterBuffer) (rtp : RtpHeader)
    (payload : List Nat) (payload_len now : Nat)
    (hsi : jb.seq_initialized = true) (hinv : JBInv jb)
    (hwf : rtp.sequence < U16) :
    JBInv (JitterBuffer_Put jb rtp payload payload_len now).2 := by
  obtain ⟨hL, hH, hN, hE, hS⟩ := hinv
  by_cases hl : payload_len = 0
  · simpa [JitterBuffer_Put, hl] using ⟨hL, hH, hN, hE, hS⟩
  have hpi : put_init jb rtp now = jb := put_init_of_inited jb rtp now hsi
  have hfs := find_slot_eq_of_inited jb rtp.sequence hsi
  by_cases c1 : seq_distance jb.next_seq rtp.sequence < -8
  · simp only [JitterBuffer_Put, hl, hpi, hfs, c1, if_true, if_false,
      ite_true, ite_false]
    exact ⟨hL, hH, hN, fun h => Bool.noConfusion (hsi.symm.trans h), hS⟩
  by_cases c2 : 16 ≤ seq_distance jb.next_seq rtp.sequence
  · simp only [JitterBuffer_Put, hl, hpi, hfs, c1, c2, if_true, if_false,
      ite_true, ite_false]
    exact ⟨hL, hH, hN, fun h => Bool.noConfusion (hsi.symm.trans h), hS⟩
  -- in-window case
  have c1' : -8 ≤ seq_distance jb.next_seq rtp.sequence := by omega
  have c2' : seq_distance jb.next_seq rtp.sequence < 16 := by omega
  have hne1 : ((((jb.head : Int) + seq_distance jb.next_seq rtp.sequence + 16).toNat
      % 16 : Nat) : Int) ≠ -1 := by omega
  have hne2 : ((((jb.head : Int) + seq_distance jb.next_seq rtp.sequence + 16).toNat
      % 16 : Nat) : Int) ≠ -2 := by omega
  have htn : ((((jb.head : Int) + seq_distance jb.next_seq rtp.sequence + 16).toNat
      % 16 : Nat) : Int).toNat
      = (((jb.head : Int) + seq_distance jb.next_seq rtp.sequence + 16).toNat % 16) := by
    omega
  set k := (((jb.head : Int) + seq_distance jb.next_seq rtp.sequence + 16).toNat % 16)
    with hkdef
  have hklt : k < 16 := by omega
  have hkcong : k % 16 = (jb.head + rtp.sequence + U16 - jb.next_seq % U16) % 16 :=
    by rw [hkdef, Nat.mod_mod_of_dvd _ (by norm_num)]
       exact seq_distance_index jb.head jb.next_seq rtp.sequence c1' c2'
  have hklen : k < jb.slots.length := by rw [hL]; exact hklt
  by_cases hdup : (jb.slots.getD k default).state ≠ 0 ∧
      (jb.slots.getD k default).sequence = rtp.sequence
  · simp only [JitterBuffer_Put, hl, hpi, hfs, c1, c2, hne1, hne2, htn,
      if_true, if_false, ite_true, ite_false]
    rw [if_pos hdup]
    exact ⟨hL, hH, hN, hE, hS⟩
  · simp only [JitterBuffer_Put, hl, hpi, hfs, c1, c2, hne1, hne2, htn,
      if_true, if_false, ite_true, ite_false]
    rw [if_neg hdup]
    split_ifs <;>
    · refine ⟨by simpa using hL, hH, hN,
        fun h => Bool.noConfusion (hsi.symm.trans h), ?_⟩
      intro i hi
      by_cases hik : i = k
      · subst hik
        rw [getD_set_self _ _ _ _ hklen]
        intro _
        refine ⟨hwf, ?_⟩
        have hN' : jb.next_seq < 65536 := hN
        have hkc : k % 16 =
            (jb.head + rtp.sequence + 65536 - jb.next_seq % 65536) % 16 := hkcong
        simp only [JITTER_BUFFER_SLOTS, U16]
        omega
      · rw [getD_set_ne _ _ _ _ _ (Ne.symm hik)]
        exact hS i hi

theorem jbinv_put (jb : JitterBuffer) (rtp : RtpHeader) (payload : List Nat)
    (payload_len now : Nat) (hinv : JBInv jb) (hwf : rtp.sequence < U16) :
    JBInv (JitterBuffer_Put jb rtp payload payload_len now).2 := by
  cases hsi : jb.seq_initialized with
  | true => exact jbinv_put_inited jb rtp payload payload_len now hsi hinv hwf
  | false =>
    obtain ⟨hL, hH, hN, hE, hS⟩ := hinv
    by_cases hl : payload_len = 0
    · simpa [JitterBuffer_Put, hl] using ⟨hL, hH, hN, hE, hS⟩
    have hstep : JitterBuffer_Put jb rtp payload payload_len now
        = JitterBuffer_Put (put_init jb rtp now) rtp payload payload_len now := by
      simp [JitterBuffer_Put, hl, put_init, hsi]
    rw [hstep]
    refine jbinv_put_inited _ rtp payload payload_len now ?_ ?_ hwf
    · simp [put_init, hsi]
    · refine ⟨by simpa [put_init, hsi] using hL, by simpa [put_init, hsi] using hH,
        by simp [put_init, hsi, hwf], ?_, ?_⟩
      · intro h
        simp [put_init, hsi] at h
      · intro i hi hstate
        have hall := hE hsi
        have hilen : i < jb.slots.length := by rw [hL]; exact hi
        have : (put_init jb rtp now).slots = jb.slots := by simp [put_init, hsi]
        rw [this, getD_lt_eq_getElem _ _ _ hilen] at hstate
        exact absurd (hall _ (jb.slots.getElem_mem hilen)) hstate

theorem jbinv_get (jb : JitterBuffer) (max : Nat) (hinv : JBInv jb) :
    JBInv (JitterBuffer_Get jb max).2.2 := by
  obtain ⟨hL, hH, hN, hE, hS⟩ := hinv
  by_cases q1 : max < AUDIO_FRAME_SAMPLES
  · simpa [JitterBuffer_Get, q1] using ⟨hL, hH, hN, hE, hS⟩
  by_cases q2 : jb.seq_initialized = false
  · simpa [JitterBuffer_Get, q1, q2] using ⟨hL, hH, hN, hE, hS⟩
  by_cases q3 : jb.count < 1
  · simpa [JitterBuffer_Get, q1, q2, q3] using ⟨hL, hH, hN, hE, hS⟩
  have hp : jb.seq_initialized = true := by
    revert q2; cases jb.seq_initialized <;> simp
  have hhd : (jb.head + 1) % JITTER_BUFFER_SLOTS < JITTER_BUFFER_SLOTS := by
    simp only [JITTER_BUFFER_SLOTS]; omega
  have hnx : (jb.next_seq + 1) % U16 < U16 := by
    simp only [U16]; omega
  have hnoinit : ∀ X : Prop, jb.seq_initialized = false → X := by
    intro X h; rw [hp] at h; cases h
  by_cases q4 : (jb.slots.getD jb.head default).state = 0
  · simp only [JitterBuffer_Get, if_neg q1, if_neg q2, if_neg q3, if_pos q4]
    split_ifs <;>
    · refine ⟨hL, hhd, hnx, fun h => hnoinit _ h, ?_⟩
      intro i hi
      exact slotOk_shift jb.head jb.next_seq i _ hH hN (hS i hi)
  · have hheadlen : jb.head < jb.slots.length := by rw [hL]; exact hH
    simp only [JitterBuffer_Get, if_neg q1, if_neg q2, if_neg q3, if_neg q4]
    split_ifs <;>
    · refine ⟨by simpa using hL, hhd, hnx, fun h => hnoinit _ h, ?_⟩
      intro i hi
      by_cases hik : i = jb.head
      · subst hik
        rw [getD_set_self _ _ _ _ hheadlen]
        intro hs
        exact absurd rfl hs
      · rw [getD_set_ne _ _ _ _ _ (Ne.symm hik)]
        exact slotOk_shift jb.head jb.next_seq i _ hH hN (hS i hi)

theorem jbinv_apply (jb : JitterBuffer) (op : JBOp) (hinv : JBInv jb)
    (hwf : op.Wf) : JBInv (JBOp.apply jb op) := by
  cases op with
  | put r p l n => exact jbinv_put jb r p l n hinv hwf.1
  | get m => exact jbinv_get jb m hinv
  | reset => exact jbinv_reset jb hinv
  | setDecoder a f => exact hinv
  | setPlc a f => exact hinv

theorem jbinv_runOps (ops : List JBOp) : ∀ jb : JitterBuffer, JBInv jb →
    (∀ op ∈ ops, op.Wf) → JBInv (runOps jb ops) := by
  induction ops with
  | nil => intro jb h _; exact h
  | cons op rest ih =>
    intro jb h hwf
    have h1 : JBInv (JBOp.apply jb op) :=
      jbinv_apply jb op h (hwf op (by simp))
    have : runOps jb (op :: rest) = runOps (JBOp.apply jb op) rest := rfl
    rw [this]
    exact ih _ h1 (fun op' hop' => hwf op' (by simp [hop']))

/-- C4: in every state reachable from a fresh `JitterBuffer` by any
sequence of Put, Get, Reset (and decoder/PLC installation) calls whose
RTP headers carry well-typed (16-bit) sequence numbers, no two distinct
non-EMPTY ring slots hold the same sequence number. -/
theorem ring_no_duplicate_seq (ops : List JBOp) (hwf : ∀ op ∈ ops, op.Wf)
    (i j : Nat) (hi : i < JITTER_BUFFER_SLOTS) (hj : j < JITTER_BUFFER_SLOTS)
    (hij : i ≠ j)
    (hsi : ((runOps JitterBuffer_Create ops).slots.getD i default).state ≠ 0)
    (hsj : ((runOps JitterBuffer_Create ops).slots.getD j default).state ≠ 0) :
    ((runOps JitterBuffer_Create ops).slots.getD i default).sequence ≠
      ((runOps JitterBuffer_Create ops).slots.getD j default).sequence := by
  obtain ⟨-, -, -, -, hS⟩ := jbinv_runOps ops JitterBuffer_Create jbinv_create hwf
  have h1 := hS i hi hsi
  have h2 := hS j hj hsj
  intro heq
  rw [heq] at h1
  simp only [JITTER_BUFFER_SLOTS, U16] at *
  omega

/-- Witness for `ring_no_duplicate_seq`: after puts of sequences 0 and 1,
slots 0 and 1 are occupied with distinct sequence numbers. -/
theorem ring_no_duplicate_seq_witness :
    (∀ op ∈ [JBOp.put ⟨0, 0, 7⟩ [1] 1 0, JBOp.put ⟨1, 0, 7⟩ [1] 1 0], op.Wf) ∧
    ((runOps JitterBuffer_Create
        [JBOp.put ⟨0, 0, 7⟩ [1] 1 0, JBOp.put ⟨1, 0, 7⟩ [1] 1 0]).slots.getD 0
        default).state ≠ 0 ∧
    ((runOps JitterBuffer_Create
        [JBOp.put ⟨0, 0, 7⟩ [1] 1 0, JBOp.put ⟨1, 0, 7⟩ [1] 1 0]).slots.getD 1
        default).state ≠ 0 ∧
    ((runOps JitterBuffer_Create
        [JBOp.put ⟨0, 0, 7⟩ [1] 1 0, JBOp.put ⟨1, 0, 7⟩ [1] 1 0]).slots.getD 0
        default).sequence ≠
      ((runOps JitterBuffer_Create
        [JBOp.put ⟨0, 0, 7⟩ [1] 1 0, JBOp.put ⟨1, 0, 7⟩ [1] 1 0]).slots.getD 1
        default).sequence := by
  have hwf : ∀ op ∈ [JBOp.put ⟨0, 0, 7⟩ [1] 1 0, JBOp.put ⟨1, 0, 7⟩ [1] 1 0],
      JBOp.Wf op := by
    intro op hop
    simp only [List.mem_cons, List.not_mem_nil, or_false] at hop
    rcases hop with rfl | rfl
    · exact ⟨by decide, by decide, by decide⟩
    · exact ⟨by decide, by decide, by decide⟩
  exact ⟨hwf, by decide, by decide,
    ring_no_duplicate_seq _ hwf 0 1 (by decide) (by decide) (by decide)
      (by decide) (by decide)⟩

/-!
## Claim C6 — GetMixed is the clamped per-sample sum
-/

/-- The codec-callback contract of one stream's jitter buffer, mirroring
the C types: an installed decoder called with `frame_size = 960` reports
at most 960 samples, all written into the 960-sample slot area; an
installed PLC callback reports a non-negative count bounded by
`frame_size`, filling its buffer up to `frame_size`; and any (transient)
DECODED slot carries a consistent sample count. -/
def GetWf (jb : JitterBuffer) : Prop :=
  (jb.hasDecoder = true → ∀ p l, 0 < (jb.decode_func p l).1 →
    (jb.decode_func p l).1 ≤ (AUDIO_FRAME_SAMPLES : Int) ∧
    AUDIO_FRAME_SAMPLES ≤ (jb.decode_func p l).2.length) ∧
  (jb.hasPlc = true → ∀ n, 0 ≤ (jb.plc_func n).1 ∧
    (jb.plc_func n).1 ≤ (n : Int) ∧ n ≤ (jb.plc_func n).2.length) ∧
  (∀ s ∈ jb.slots, s.state ≠ 0 → s.state ≠ 1 → 0 ≤ s.decoded_samples ∧
    s.decoded_samples ≤ (AUDIO_FRAME_SAMPLES : Int) ∧
    s.decoded_samples.toNat ≤ s.decoded.length)

theorem plc_frame_bounds (jb : JitterBuffer) (hwf : GetWf jb) :
    0 ≤ (plc_frame jb AUDIO_FRAME_SAMPLES).1 ∧
    (plc_frame jb AUDIO_FRAME_SAMPLES).1 ≤ (AUDIO_FRAME_SAMPLES : Int) ∧
    AUDIO_FRAME_SAMPLES ≤ (plc_frame jb AUDIO_FRAME_SAMPLES).2.length := by
  by_cases h : jb.hasPlc
  · have := hwf.2.1 h AUDIO_FRAME_SAMPLES
    simp only [plc_frame, if_pos h]
    exact ⟨this.1, this.2.1, this.2.2⟩
  · simp [plc_frame, h]

/-- Bounds on one pull: the return value of `JitterBuffer_Get _ 960` on a
well-formed buffer is in `[0, 960]`, and the returned PCM covers it. -/
theorem get_pull_bounds (jb : JitterBuffer) (hwf : GetWf jb) :
    0 ≤ (JitterBuffer_Get jb AUDIO_FRAME_SAMPLES).1 ∧
    (JitterBuffer_Get jb AUDIO_FRAME_SAMPLES).1 ≤ (AUDIO_FRAME_SAMPLES : Int) ∧
    (JitterBuffer_Get jb AUDIO_FRAME_SAMPLES).1.toNat ≤
      (JitterBuffer_Get jb AUDIO_FRAME_SAMPLES).2.1.length := by
  have hAF : ((AUDIO_FRAME_SAMPLES : Nat) : Int) = 960 := rfl
  have q1 : ¬ (AUDIO_FRAME_SAMPLES < AUDIO_FRAME_SAMPLES) := lt_irrefl _
  by_cases q2 : jb.seq_initialized = false
  · simp [JitterBuffer_Get, q1, q2]
  by_cases q3 : jb.count < 1
  · simp [JitterBuffer_Get, q1, q2, q3]
  obtain ⟨hplc1, hplc2, hplc3⟩ := plc_frame_bounds jb hwf
  have hplcN : (plc_frame jb AUDIO_FRAME_SAMPLES).1.toNat ≤
      (plc_frame jb AUDIO_FRAME_SAMPLES).2.length := by omega
  by_cases q4 : (jb.slots.getD jb.head default).state = 0
  · simp only [JitterBuffer_Get, if_neg q1, if_neg q2, if_neg q3, if_pos q4]
    exact ⟨hplc1, hplc2, hplcN⟩
  · simp only [JitterBuffer_Get, if_neg q1, if_neg q2, if_neg q3, if_neg q4]
    by_cases q5 : (jb.slots.getD jb.head default).state = 1
    · rw [if_pos q5]
      by_cases q6 : (decode_slot jb (jb.slots.getD jb.head default)).1 < 0
      · rw [if_pos ⟨q5, q6⟩]
        exact ⟨hplc1, hplc2, hplcN⟩
      · rw [if_neg (fun hx : _ ∧ _ => q6 hx.2)]
        -- decode succeeded: the decoder contract bounds the output
        have hsucc : jb.hasDecoder = true ∧
            (decode_slot jb (jb.slots.getD jb.head default)).1 =
              (jb.decode_func (jb.slots.getD jb.head default).payload
                (jb.slots.getD jb.head default).payload_len).1 ∧
            (decode_slot jb (jb.slots.getD jb.head default)).2.decoded_samples =
              (jb.decode_func (jb.slots.getD jb.head default).payload
                (jb.slots.getD jb.head default).payload_len).1 ∧
            (decode_slot jb (jb.slots.getD jb.head default)).2.decoded =
              (jb.decode_func (jb.slots.getD jb.head default).payload
                (jb.slots.getD jb.head default).payload_len).2 ∧
            0 < (jb.decode_func (jb.slots.getD jb.head default).payload
              (jb.slots.getD jb.head default).payload_len).1 := by
          have hne : ¬ ((jb.slots.getD jb.head default).state ≠ 1) :=
            fun hx => hx q5
          by_cases hdcf : jb.hasDecoder
          · simp only [decode_slot, if_neg hne, if_pos hdcf]
            split_ifs with hpos
            · exact ⟨hdcf, rfl, rfl, rfl, hpos⟩
            · exact absurd
                (by simp only [decode_slot, if_neg hne, if_pos hdcf,
                      if_neg hpos]
                    omega :
                  (decode_slot jb (jb.slots.getD jb.head default)).1 < 0) q6
          · exact absurd
              (by simp only [decode_slot, if_neg hne, if_neg hdcf]
                  omega :
                (decode_slot jb (jb.slots.getD jb.head default)).1 < 0) q6
        obtain ⟨hdec, hr1, hds, hdc, hpos⟩ := hsucc
        have hb := hwf.1 hdec (jb.slots.getD jb.head default).payload
          (jb.slots.getD jb.head default).payload_len hpos
        have hA : (decode_slot jb (jb.slots.getD jb.head default)).2.decoded_samples
            ≤ 960 := by rw [hds]; omega
        have hL : 960 ≤
            (decode_slot jb (jb.slots.getD jb.head default)).2.decoded.length := by
          rw [hdc]; exact hb.2
        have hP : 0 <
            (decode_slot jb (jb.slots.getD jb.head default)).2.decoded_samples := by
          rw [hds]; exact hpos
        refine ⟨?_, ?_, ?_⟩
        · exact le_min_iff.mpr ⟨by omega, by omega⟩
        · exact min_le_right _ _
        · have : (min (decode_slot jb (jb.slots.getD jb.head default)).2.decoded_samples
              ((AUDIO_FRAME_SAMPLES : Nat) : Int)).toNat ≤
              (List.take (min (decode_slot jb (jb.slots.getD jb.head default)).2.decoded_samples
                ((AUDIO_FRAME_SAMPLES : Nat) : Int)).toNat
                (decode_slot jb (jb.slots.getD jb.head default)).2.decoded).length := by
            rw [List.length_take]
            omega
          exact this
    · -- state = 2 (a DECODED slot): the slot invariant bounds the output
      rw [if_neg q5, if_neg (fun hx : _ ∧ _ => q5 hx.1)]
      have hmem : jb.slots.getD jb.head default ∈ jb.slots ∨
          jb.slots.getD jb.head default = default := by
        by_cases hh : jb.head < jb.slots.length
        · left
          rw [getD_lt_eq_getElem _ _ _ hh]
          exact jb.slots.getElem_mem hh
        · right
          have hnone : jb.slots[jb.head]? = none :=
            List.getElem?_eq_none (by omega)
          simp [List.getD_eq_getElem?_getD, hnone]
      have hb : 0 ≤ (jb.slots.getD jb.head default).decoded_samples ∧
          (jb.slots.getD jb.head default).decoded_samples ≤ (AUDIO_FRAME_SAMPLES : Int) ∧
          (jb.slots.getD jb.head default).decoded_samples.toNat ≤
            (jb.slots.getD jb.head default).decoded.length := by
        rcases hmem with h | h
        · exact hwf.2.2 _ h q4 q5
        · rw [h] at q4
          exact absurd rfl q4
      refine ⟨?_, ?_, ?_⟩
      · exact le_min_iff.mpr ⟨hb.1, by omega⟩
      · exact min_le_right _ _
      · have : (min (jb.slots.getD jb.head default).decoded_samples
            ((AUDIO_FRAME_SAMPLES : Nat) : Int)).toNat ≤
            (List.take (min (jb.slots.getD jb.head default).decoded_samples
              ((AUDIO_FRAME_SAMPLES : Nat) : Int)).toNat
              (jb.slots.getD jb.head default).decoded).length := by
          rw [List.length_take]
          have h2 := hb.2.1
          have h3 := hb.2.2
          omega
        exact this

theorem mixAcc_length (mix frame : List Int) (got : Nat) :
    (mixAcc mix frame got).length = mix.length := by
  simp [mixAcc]

theorem mixAcc_getD (mix frame : List Int) (got i : Nat) (hi : i < mix.length) :
    (mixAcc mix frame got).getD i 0 =
      mix.getD i 0 + (if i < got then frame.getD i 0 else 0) := by
  unfold mixAcc
  rw [getD_lt_eq_getElem _ _ _ (by simpa using hi),
    List.getElem_map, List.getElem_range]
  split_ifs <;> simp

theorem maxGot_le (ps : List (Int × List Int)) (n : Nat)
    (h : ∀ p ∈ ps, p.1 ≤ (n : Int)) : maxGot ps ≤ n := by
  induction ps with
  | nil => simp [maxGot]
  | cons p rest ih =>
    have h1 := h p (by simp)
    have h2 : maxGot rest ≤ n := ih (fun q hq => h q (by simp [hq]))
    simp only [maxGot, List.map_cons, List.foldr_cons]
    rw [show ((rest.map (fun p => p.1.toNat)).foldr max 0) = maxGot rest from rfl]
    omega

theorem maxGot_eq_zero (ps : List (Int × List Int))
    (h0 : ∀ p ∈ ps, 0 ≤ p.1) : (maxGot ps = 0 ↔ ∀ p ∈ ps, p.1 = 0) := by
  induction ps with
  | nil => simp [maxGot]
  | cons p rest ih =>
    have hp := h0 p (by simp)
    have ihr := ih (fun q hq => h0 q (by simp [hq]))
    simp only [maxGot, List.map_cons, List.foldr_cons]
    rw [show ((rest.map (fun p => p.1.toNat)).foldr max 0) = maxGot rest from rfl]
    constructor
    · intro h
      intro q hq
      rcases List.mem_cons.mp hq with rfl | hq'
      · omega
      · exact (ihr.mp (by omega)) q hq'
    · intro h
      have h1 : p.1 = 0 := h p (by simp)
      have h2 : maxGot rest = 0 := ihr.mpr (fun q hq => h q (by simp [hq]))
      omega

theorem streamPulls_bounds (streams : List StreamInfo)
    (hwf : ∀ s ∈ streams, GetWf s.jb) :
    ∀ p ∈ streamPulls streams, 0 ≤ p.1 ∧ p.1 ≤ (AUDIO_FRAME_SAMPLES : Int) ∧
      p.1.toNat ≤ p.2.length := by
  intro p hp
  rw [streamPulls, List.mem_filterMap] at hp
  obtain ⟨s, hs, hsp⟩ := hp
  by_cases hact : s.active
  · rw [if_pos hact, Option.some_inj] at hsp
    have hb := get_pull_bounds s.jb (hwf s hs)
    rw [← hsp]
    exact ⟨hb.1, hb.2.1, hb.2.2⟩
  · rw [if_neg hact] at hsp
    cases hsp

theorem getMixedLoop_spec (streams : List StreamInfo) :
    ∀ (mix : List Int) (outS : Nat), (∀ s ∈ streams, GetWf s.jb) →
      mix.length = AUDIO_FRAME_SAMPLES →
      (getMixedLoop streams mix outS).1.length = AUDIO_FRAME_SAMPLES ∧
      (getMixedLoop streams mix outS).2.1 =
        max outS (maxGot (streamPulls streams)) ∧
      (∀ i < AUDIO_FRAME_SAMPLES,
        (getMixedLoop streams mix outS).1.getD i 0 =
          mix.getD i 0 + mixSum (streamPulls streams) i) := by
  induction streams with
  | nil =>
    intro mix outS _ hlen
    refine ⟨hlen, by simp [getMixedLoop, streamPulls, maxGot], ?_⟩
    intro i hi
    simp [getMixedLoop, streamPulls, mixSum]
  | cons s rest ih =>
    intro mix outS hwf hlen
    have hwfr : ∀ t ∈ rest, GetWf t.jb := fun t ht => hwf t (by simp [ht])
    by_cases hact : s.active
    · have hpulls : streamPulls (s :: rest) =
          ((JitterBuffer_Get s.jb AUDIO_FRAME_SAMPLES).1,
           (JitterBuffer_Get s.jb AUDIO_FRAME_SAMPLES).2.1) ::
            streamPulls rest := by
        simp [streamPulls, hact]
      by_cases hg : 0 < (JitterBuffer_Get s.jb AUDIO_FRAME_SAMPLES).1
      · have hrec := ih (mixAcc mix (JitterBuffer_Get s.jb AUDIO_FRAME_SAMPLES).2.1
          (JitterBuffer_Get s.jb AUDIO_FRAME_SAMPLES).1.toNat)
          (max outS (JitterBuffer_Get s.jb AUDIO_FRAME_SAMPLES).1.toNat)
          hwfr (by rw [mixAcc_length]; exact hlen)
        simp only [getMixedLoop, if_pos hact, if_pos hg]
        refine ⟨hrec.1, ?_, ?_⟩
        · rw [hrec.2.1, hpulls]
          simp only [maxGot, List.map_cons, List.foldr_cons]
          rw [show ((streamPulls rest).map (fun p => p.1.toNat)).foldr max 0
                = maxGot (streamPulls rest) from rfl]
          omega
        · intro i hi
          rw [hrec.2.2 i hi, mixAcc_getD _ _ _ _ (by omega), hpulls]
          simp only [mixSum, List.map_cons, List.sum_cons]
          rw [show ((streamPulls rest).map
                (fun p => if (i : Int) < p.1 then p.2.getD i 0 else 0)).sum
              = mixSum (streamPulls rest) i from rfl]
          have hiff : (i < (JitterBuffer_Get s.jb AUDIO_FRAME_SAMPLES).1.toNat) ↔
              ((i : Int) < (JitterBuffer_Get s.jb AUDIO_FRAME_SAMPLES).1) := by
            omega
          split_ifs with hc1 hc2 hc2
          · ring
          · exact absurd (hiff.mp hc1) hc2
          · exact absurd (hiff.mpr hc2) hc1
          · ring
      · have hrec := ih mix outS hwfr hlen
        simp only [getMixedLoop, if_pos hact, if_neg hg]
        refine ⟨hrec.1, ?_, ?_⟩
        · rw [hrec.2.1, hpulls]
          simp only [maxGot, List.map_cons, List.foldr_cons]
          rw [show ((streamPulls rest).map (fun p => p.1.toNat)).foldr max 0
                = maxGot (streamPulls rest) from rfl]
          omega
        · intro i hi
          rw [hrec.2.2 i hi, hpulls]
          simp only [mixSum, List.map_cons, List.sum_cons]
          rw [show ((streamPulls rest).map
                (fun p => if (i : Int) < p.1 then p.2.getD i 0 else 0)).sum
              = mixSum (streamPulls rest) i from rfl]
          have hc : ¬ ((i : Int) < (JitterBuffer_Get s.jb AUDIO_FRAME_SAMPLES).1) := by
            omega
          rw [if_neg hc]
          ring
    · have hpulls : streamPulls (s :: rest) = streamPulls rest := by
        simp [streamPulls, hact]
      have hrec := ih mix outS hwfr hlen
      simp only [getMixedLoop, if_neg hact]
      exact ⟨hrec.1, by rw [hrec.2.1, hpulls], fun i hi => by
        rw [hrec.2.2 i hi, hpulls]⟩

/-- C6: GetMixed pulls one frame from every active stream, accumulates
them per-sample in the 32-bit mix buffer and clamps to the int16 range;
it returns 0 exactly when every active stream produced 0, and otherwise
its return value (the written length) is the longest frame produced this
call. -/
theorem mixer_getmixed_clamped_sum (msjb : MultiStreamJB) (max_samples : Nat)
    (hmax : AUDIO_FRAME_SAMPLES ≤ max_samples)
    (hwf : ∀ s ∈ msjb.streams, GetWf s.jb) :
    ((MultiStreamJB_GetMixed msjb max_samples).1 = 0 ↔
      ∀ p ∈ streamPulls msjb.streams, p.1 = 0) ∧
    (MultiStreamJB_GetMixed msjb max_samples).1 =
      (maxGot (streamPulls msjb.streams) : Int) ∧
    (MultiStreamJB_GetMixed msjb max_samples).2.1 =
      (List.range (maxGot (streamPulls msjb.streams))).map
        (fun i => clamp16 (mixSum (streamPulls msjb.streams) i)) := by
  have hm : ¬ (max_samples < AUDIO_FRAME_SAMPLES) := not_lt.mpr hmax
  have hloop := getMixedLoop_spec msjb.streams
    (List.replicate AUDIO_FRAME_SAMPLES 0) 0 hwf (by simp)
  have hpb := streamPulls_bounds msjb.streams hwf
  have hle : maxGot (streamPulls msjb.streams) ≤ AUDIO_FRAME_SAMPLES :=
    maxGot_le _ _ (fun p hp => (hpb p hp).2.1)
  have hz := maxGot_eq_zero (streamPulls msjb.streams) (fun p hp => (hpb p hp).1)
  have houtS : (getMixedLoop msjb.streams
      (List.replicate AUDIO_FRAME_SAMPLES 0) 0).2.1 =
      maxGot (streamPulls msjb.streams) := by
    rw [hloop.2.1]; omega
  by_cases hzero : (getMixedLoop msjb.streams
      (List.replicate AUDIO_FRAME_SAMPLES 0) 0).2.1 = 0
  · simp only [MultiStreamJB_GetMixed, if_neg hm, if_pos hzero]
    have h0 : maxGot (streamPulls msjb.streams) = 0 := by omega
    refine ⟨?_, by rw [h0]; rfl, by rw [h0]; rfl⟩
    simpa using hz.mp h0
  · simp only [MultiStreamJB_GetMixed, if_neg hm, if_neg hzero]
    have hne : maxGot (streamPulls msjb.streams) ≠ 0 := by omega
    have hmin : min (getMixedLoop msjb.streams
        (List.replicate AUDIO_FRAME_SAMPLES 0) 0).2.1 max_samples =
        maxGot (streamPulls msjb.streams) := by
      rw [houtS]; omega
    refine ⟨?_, by rw [hmin], ?_⟩
    · constructor
      · intro h
        exfalso
        rw [hmin] at h
        exact hne (by omega)
      · intro h
        exact absurd (hz.mpr h) hne
    · rw [hmin]
      refine List.map_congr_left ?_
      intro i hi
      rw [List.mem_range] at hi
      have hgd := hloop.2.2 i (by omega)
      rw [hgd]
      have : (List.replicate AUDIO_FRAME_SAMPLES (0 : Int)).getD i 0 = 0 :=
        getD_replicate _ _ _ _ (by omega)
      rw [this, zero_add]

set_option maxRecDepth 8000 in
/-- Witness for `mixer_getmixed_clamped_sum`: two active streams each
producing a constant frame of 10000 mix (the claim's example) to 20000
per sample. -/
theorem mixer_getmixed_clamped_sum_witness :
    AUDIO_FRAME_SAMPLES ≤ 960 ∧ (∀ s ∈ msjbTwo.streams, GetWf s.jb) ∧
    (MultiStreamJB_GetMixed msjbTwo 960).1 =
      (maxGot (streamPulls msjbTwo.streams) : Int) ∧
    (MultiStreamJB_GetMixed msjbTwo 960).2.1.getD 0 0 = 20000 := by
  have hwf : ∀ s ∈ msjbTwo.streams, GetWf s.jb := by
    intro s hs
    have hcases : s = constStream 1 10000 ∨ s = constStream 2 10000 := by
      simpa [msjbTwo] using hs
    rcases hcases with rfl | rfl <;>
      exact ⟨fun _ p l _ => ⟨le_refl _, le_refl _⟩,
             fun h => absurd h (by decide), by decide⟩
  exact ⟨by decide, hwf,
    (mixer_getmixed_clamped_sum msjbTwo 960 (by decide) hwf).2.1, by decide⟩

/-!
## Claim C9 — the discovery sweep and its directory
-/

theorem updateEntry_none_iff (dir : List ServerInfo) (e : RespEvent) :
    updateEntry dir e = none ↔
      e.resp.server_id ∉ dir.map (fun s => s.server_id) := by
  induction dir with
  | nil => simp [updateEntry]
  | cons s rest ih =>
    by_cases h : s.server_id = e.resp.server_id
    · simp [updateEntry, h]
    · cases hu : updateEntry rest e with
      | some r =>
        have hmem : e.resp.server_id ∈ rest.map (fun s => s.server_id) := by
          by_contra hx
          rw [← ih] at hx
          rw [hx] at hu
          cases hu
        simp [updateEntry, h, hu, hmem]
      | none =>
        have h2 := ih.mp hu
        have h3 : ¬ e.resp.server_id = s.server_id := fun hh => h hh.symm
        simp [updateEntry, h, hu, h2, h3]

theorem updateEntry_some_spec (dir : List ServerInfo) (e : RespEvent) :
    ∀ d : List ServerInfo, updateEntry dir e = some d →
      d.map (fun s => s.server_id) = dir.map (fun s => s.server_id) ∧
      d.length = dir.length ∧
      ∀ s ∈ d, s ∈ dir ∨ s = mkInfo e := by
  induction dir with
  | nil => intro d h; cases h
  | cons s rest ih =>
    intro d h
    by_cases hid : s.server_id = e.resp.server_id
    · rw [updateEntry, if_pos hid, Option.some_inj] at h
      subst h
      refine ⟨by simp [mkInfo, hid], by simp, ?_⟩
      intro t ht
      rcases List.mem_cons.mp ht with rfl | ht'
      · exact Or.inr rfl
      · exact Or.inl (List.mem_cons_of_mem _ ht')
    · rw [updateEntry, if_neg hid] at h
      cases hu : updateEntry rest e with
      | none => rw [hu] at h; cases h
      | some r =>
        rw [hu, Option.some_inj] at h
        subst h
        obtain ⟨hid', hlen', hmem'⟩ := ih r hu
        refine ⟨by simp [hid'], by simp [hlen'], ?_⟩
        intro t ht
        rcases List.mem_cons.mp ht with rfl | ht'
        · exact Or.inl (List.mem_cons_self _ _)
        · rcases hmem' t ht' with h' | h'
          · exact Or.inl (List.mem_cons_of_mem _ h')
          · exact Or.inr h'

theorem updateEntry_eq_mkInfo (dir : List ServerInfo) (e : RespEvent) :
    ∀ d : List ServerInfo, updateEntry dir e = some d →
      (dir.map (fun s => s.server_id)).Nodup →
      ∀ s ∈ d, s.server_id = e.resp.server_id → s = mkInfo e := by
  induction dir with
  | nil => intro d h; cases h
  | cons s0 rest ih =>
    intro d h hnd t ht hid
    rw [List.map_cons, List.nodup_cons] at hnd
    by_cases h0 : s0.server_id = e.resp.server_id
    · rw [updateEntry, if_pos h0, Option.some_inj] at h
      subst h
      rcases List.mem_cons.mp ht with rfl | ht'
      · rfl
      · exfalso
        exact hnd.1 (List.mem_map.mpr
          ⟨t, ht', by show t.server_id = s0.server_id; rw [hid, h0]⟩)
    · rw [updateEntry, if_neg h0] at h
      cases hu : updateEntry rest e with
      | none => rw [hu] at h; cases h
      | some r =>
        rw [hu, Option.some_inj] at h
        subst h
        rcases List.mem_cons.mp ht with rfl | ht'
        · exact absurd hid h0
        · exact ih r hu hnd.2 t ht' hid

theorem sweepAux_spec (evs : List RespEvent) :
    ∀ dir : List ServerInfo, ((dir.map (fun s => s.server_id)).Nodup) →
      dir.length ≤ MAX_SERVERS →
      ((sweepAux dir evs).1.map (fun s => s.server_id)).Nodup ∧
      (sweepAux dir evs).1.map (fun s => s.server_id) =
        dir.map (fun s => s.server_id) ++ (sweepAux dir evs).2 ∧
      (sweepAux dir evs).1.length ≤ MAX_SERVERS ∧
      (∀ s ∈ (sweepAux dir evs).1, s ∈ dir ∨ ∃ e ∈ evs, s = mkInfo e) ∧
      (∀ e ∈ evs,
        e.resp.server_id ∈ (sweepAux dir evs).1.map (fun s => s.server_id) ∨
        (sweepAux dir evs).1.length = MAX_SERVERS) := by
  induction evs with
  | nil =>
    intro dir hnd hlen
    exact ⟨hnd, by simp [sweepAux], hlen, fun s hs => Or.inl hs, by simp⟩
  | cons e es ih =>
    intro dir hnd hlen
    cases hu : updateEntry dir e with
    | some d =>
      obtain ⟨hid, hlen', hmem⟩ := updateEntry_some_spec dir e d hu
      have hrec := ih d (by rw [hid]; exact hnd) (by omega)
      have heid : e.resp.server_id ∈ dir.map (fun s => s.server_id) := by
        by_contra hx
        rw [← updateEntry_none_iff] at hx
        rw [hx] at hu
        cases hu
      simp only [sweepAux, applyResp, hu]
      refine ⟨hrec.1, ?_, hrec.2.2.1, ?_, ?_⟩
      · rw [hrec.2.1, hid]
        simp
      · intro t ht
        rcases hrec.2.2.2.1 t ht with h' | ⟨e', he', rfl⟩
        · rcases hmem t h' with h'' | h''
          · exact Or.inl h''
          · exact Or.inr ⟨e, List.mem_cons_self _ _, h''⟩
        · exact Or.inr ⟨e', List.mem_cons_of_mem _ he', rfl⟩
      · intro e' he'
        rcases List.mem_cons.mp he' with rfl | he''
        · left
          rw [hrec.2.1, hid]
          simp only [List.mem_append]
          exact Or.inl heid
        · simpa using hrec.2.2.2.2 e' he''
    | none =>
      have hnotin : e.resp.server_id ∉ dir.map (fun s => s.server_id) :=
        (updateEntry_none_iff dir e).mp hu
      by_cases hcap : dir.length < MAX_SERVERS
      · have hnd' : (((dir ++ [mkInfo e]).map (fun s => s.server_id)).Nodup) := by
          simp [List.nodup_append, hnd, hnotin, mkInfo]
        have hrec := ih (dir ++ [mkInfo e]) hnd' (by simp; omega)
        simp only [sweepAux, applyResp, hu, if_pos hcap]
        refine ⟨hrec.1, ?_, hrec.2.2.1, ?_, ?_⟩
        · rw [hrec.2.1]
          simp [mkInfo]
        · intro t ht
          rcases hrec.2.2.2.1 t ht with h' | ⟨e', he', rfl⟩
          · rcases List.mem_append.mp h' with h'' | h''
            · exact Or.inl h''
            · exact Or.inr ⟨e, List.mem_cons_self _ _, List.mem_singleton.mp h''⟩
          · exact Or.inr ⟨e', List.mem_cons_of_mem _ he', rfl⟩
        · intro e' he'
          rcases List.mem_cons.mp he' with rfl | he''
          · left
            rw [hrec.2.1]
            simp [mkInfo]
          · simpa using hrec.2.2.2.2 e' he''
      · have hrec := ih dir hnd hlen
        have hfull : dir.length = MAX_SERVERS := by omega
        have hqlen : (sweepAux dir es).1.length = MAX_SERVERS := by
          have hlq : (sweepAux dir es).1.length =
              dir.length + (sweepAux dir es).2.length := by
            have := congrArg List.length hrec.2.1
            simpa using this
          have := hrec.2.2.1
          omega
        simp only [sweepAux, applyResp, hu, if_neg hcap]
        refine ⟨hrec.1, by simpa using hrec.2.1, hrec.2.2.1, ?_, ?_⟩
        · intro t ht
          rcases hrec.2.2.2.1 t ht with h' | ⟨e', he', rfl⟩
          · exact Or.inl h'
          · exact Or.inr ⟨e', List.mem_cons_of_mem _ he', rfl⟩
        · intro e' he'
          rcases List.mem_cons.mp he' with rfl | he''
          · right
            simpa using hqlen
          · simpa using hrec.2.2.2.2 e' he''

theorem sweepAux_last_fields (es : List RespEvent) :
    ∀ dir : List ServerInfo, ((dir.map (fun s => s.server_id)).Nodup) →
      (∀ s ∈ (sweepAux dir es).1, ∀ e0,
        lastRespFor es s.server_id = some e0 → s = mkInfo e0) ∧
      (∀ s ∈ (sweepAux dir es).1,
        lastRespFor es s.server_id = none → s ∈ dir) := by
  induction es with
  | nil =>
    intro dir hnd
    refine ⟨?_, ?_⟩
    · intro s hs e0 h
      simp [lastRespFor] at h
    · intro s hs _
      simpa [sweepAux] using hs
  | cons e es ih =>
    intro dir hnd
    have hsplit : ∀ v : Nat, lastRespFor (e :: es) v = none →
        lastRespFor es v = none ∧ ¬ e.resp.server_id = v := by
      intro v h
      cases hl : lastRespFor es v with
      | some r =>
        simp only [lastRespFor, hl] at h
        exact Option.noConfusion h
      | none =>
        refine ⟨rfl, ?_⟩
        intro hx
        simp only [lastRespFor, hl, if_pos hx] at h
        exact Option.noConfusion h
    have hcase : ∀ v : Nat, ∀ e0 : RespEvent,
        lastRespFor (e :: es) v = some e0 →
        lastRespFor es v = some e0 ∨
          (lastRespFor es v = none ∧ e.resp.server_id = v ∧ e0 = e) := by
      intro v e0 h
      cases hl : lastRespFor es v with
      | some r =>
        simp only [lastRespFor, hl] at h
        exact Or.inl h
      | none =>
        simp only [lastRespFor, hl] at h
        by_cases hx : e.resp.server_id = v
        · rw [if_pos hx, Option.some_inj] at h
          exact Or.inr ⟨rfl, hx, h.symm⟩
        · rw [if_neg hx] at h
          cases h
    cases hu : updateEntry dir e with
    | some d =>
      obtain ⟨hid, hlen', hmem⟩ := updateEntry_some_spec dir e d hu
      have hrec := ih d (by rw [hid]; exact hnd)
      have hq : (sweepAux dir (e :: es)).1 = (sweepAux d es).1 := by
        simp [sweepAux, applyResp, hu]
      rw [hq]
      refine ⟨?_, ?_⟩
      · intro s hs e0 h
        rcases hcase s.server_id e0 h with hl | ⟨hl, hid2, heq⟩
        · exact hrec.1 s hs e0 hl
        · rw [heq]
          have hsin : s ∈ d := hrec.2 s hs hl
          exact updateEntry_eq_mkInfo dir e d hu hnd s hsin hid2.symm
      · intro s hs h
        obtain ⟨hl, hne⟩ := hsplit s.server_id h
        have hsin : s ∈ d := hrec.2 s hs hl
        rcases hmem s hsin with h' | rfl
        · exact h'
        · exact absurd rfl hne
    | none =>
      have hnotin : e.resp.server_id ∉ dir.map (fun s => s.server_id) :=
        (updateEntry_none_iff dir e).mp hu
      by_cases hcap : dir.length < MAX_SERVERS
      · have hnd' : (((dir ++ [mkInfo e]).map (fun s => s.server_id)).Nodup) := by
          simp [List.nodup_append, hnd, hnotin, mkInfo]
        have hrec := ih (dir ++ [mkInfo e]) hnd'
        have hq : (sweepAux dir (e :: es)).1 =
            (sweepAux (dir ++ [mkInfo e]) es).1 := by
          simp [sweepAux, applyResp, hu, if_pos hcap]
        rw [hq]
        refine ⟨?_, ?_⟩
        · intro s hs e0 h
          rcases hcase s.server_id e0 h with hl | ⟨hl, hid2, heq⟩
          · exact hrec.1 s hs e0 hl
          · rw [heq]
            have hsin := hrec.2 s hs hl
            rcases List.mem_append.mp hsin with h' | h'
            · exact absurd (List.mem_map.mpr ⟨s, h', hid2.symm⟩) hnotin
            · exact List.mem_singleton.mp h'
        · intro s hs h
          obtain ⟨hl, hne⟩ := hsplit s.server_id h
          have hsin := hrec.2 s hs hl
          rcases List.mem_append.mp hsin with h' | h'
          · exact h'
          · exact absurd (congrArg ServerInfo.server_id
              (List.mem_singleton.mp h').symm) hne
      · have hrec := ih dir hnd
        have hq : (sweepAux dir (e :: es)).1 = (sweepAux dir es).1 := by
          simp [sweepAux, applyResp, hu, if_neg hcap]
        rw [hq]
        refine ⟨?_, ?_⟩
        · intro s hs e0 h
          rcases hcase s.server_id e0 h with hl | ⟨hl, hid2, heq⟩
          · exact hrec.1 s hs e0 hl
          · have hsin : s ∈ dir := hrec.2 s hs hl
            exact absurd (List.mem_map.mpr ⟨s, hsin, hid2.symm⟩) hnotin
        · intro s hs h
          obtain ⟨hl, _⟩ := hsplit s.server_id h
          exact hrec.2 s hs hl

/-- C9 amended: the directory is cleared at the start of every sweep; the
directory after the sweep holds no duplicate server ids, every entry is a
field-copy of one of that sweep's responses — precisely, of the *last*
response carrying its server id, so a duplicate response within the sweep
overwrites the listed entry's fields — and `onServerFound` fires exactly
once per listed server (so the duplicate does not re-fire it).  Finally,
— *up to the MAX_SERVERS = 32 capacity* — every responder is listed:
whenever at most 32 distinct servers responded, the directory contains
exactly the responders.  (Beyond 32 distinct responders, later new
servers are dropped; see the counterexample.) -/
theorem discovery_sweep_spec (evs : List RespEvent) :
    (((sweep evs).1.map (fun s => s.server_id)).Nodup) ∧
    (sweep evs).2 = (sweep evs).1.map (fun s => s.server_id) ∧
    (∀ s ∈ (sweep evs).1, ∃ e ∈ evs, s = mkInfo e) ∧
    (∀ s ∈ (sweep evs).1, ∃ e,
      lastRespFor evs s.server_id = some e ∧ s = mkInfo e) ∧
    ((evs.map (fun e => e.resp.server_id)).dedup.length ≤ MAX_SERVERS →
      ∀ e ∈ evs, ∃ s ∈ (sweep evs).1, s.server_id = e.resp.server_id) := by
  have h := sweepAux_spec evs [] (by simp) (by simp [MAX_SERVERS])
  rw [show sweepAux [] evs = sweep evs from rfl] at h
  have hlf := sweepAux_last_fields evs [] (by simp)
  rw [show sweepAux [] evs = sweep evs from rfl] at hlf
  have hmemb : ∀ s ∈ (sweep evs).1, ∃ e ∈ evs, s = mkInfo e := by
    intro s hs
    rcases h.2.2.2.1 s hs with h' | h'
    · cases h'
    · exact h'
  have hlast : ∀ s ∈ (sweep evs).1, ∃ e,
      lastRespFor evs s.server_id = some e ∧ s = mkInfo e := by
    intro s hs
    cases hl : lastRespFor evs s.server_id with
    | none => cases hlf.2 s hs hl
    | some e => exact ⟨e, rfl, hlf.1 s hs e hl⟩
  refine ⟨h.1, by simpa using h.2.1.symm, hmemb, hlast, ?_⟩
  intro hcap e he
  by_cases hin : e.resp.server_id ∈ (sweep evs).1.map (fun s => s.server_id)
  · rw [List.mem_map] at hin
    obtain ⟨s, hs, hid⟩ := hin
    exact ⟨s, hs, hid⟩
  · exfalso
    rcases h.2.2.2.2 e he with h' | hfull
    · exact hin h'
    · have hsub : ((sweep evs).1.map (fun s => s.server_id)).toFinset ⊆
          (evs.map (fun e => e.resp.server_id)).toFinset := by
        intro x hx
        rw [List.mem_toFinset, List.mem_map] at hx
        obtain ⟨s, hs, rfl⟩ := hx
        obtain ⟨e', he', rfl⟩ := hmemb s hs
        rw [List.mem_toFinset, List.mem_map]
        exact ⟨e', he', rfl⟩
      have hLcard : ((sweep evs).1.map (fun s => s.server_id)).toFinset.card =
          MAX_SERVERS := by
        rw [List.toFinset_card_of_nodup h.1, List.length_map]
        exact hfull
      have hins : insert e.resp.server_id
          ((sweep evs).1.map (fun s => s.server_id)).toFinset ⊆
          (evs.map (fun e => e.resp.server_id)).toFinset := by
        rw [Finset.insert_subset_iff]
        refine ⟨?_, hsub⟩
        rw [List.mem_toFinset, List.mem_map]
        exact ⟨e, he, rfl⟩
      have hcard := Finset.card_le_card hins
      rw [Finset.card_insert_of_not_mem (by rwa [List.mem_toFinset]),
        hLcard, List.card_toFinset] at hcard
      omega

/-- C9 counterexample: with 33 distinct responders (one more than
`MAX_SERVERS = 32`), server id 32 responds during the sweep but is absent
from the directory afterwards — the directory does not contain exactly
the servers that responded. -/
theorem sweep_drops_beyond_capacity :
    (32 ∈ manyEvents.map (fun e => e.resp.server_id)) ∧
    (∀ s ∈ (sweep manyEvents).1, s.server_id ≠ 32) := by
  decide

/-- Witness for `discovery_sweep_spec`: a sweep with two responses from
the same server id 5 lists it once, notifies once, and the surviving
entry carries the *second* response's fields (name 1, ip 9, tcp port 2,
udp port 3, flags 4, peers 5/6, last seen 1) — the duplicate overwrote
the all-zero fields of the first response. -/
theorem discovery_sweep_spec_witness :
    ((dupEvents.map (fun e => e.resp.server_id)).dedup.length ≤ MAX_SERVERS) ∧
    ((⟨⟨5, 0, 0, 0, 0, 0, 0⟩, 0, 0⟩ : RespEvent) ∈ dupEvents) ∧
    ((mkInfo ⟨⟨5, 1, 2, 3, 4, 5, 6⟩, 9, 1⟩) ∈ (sweep dupEvents).1) ∧
    (∃ e, lastRespFor dupEvents
        (mkInfo (⟨⟨5, 1, 2, 3, 4, 5, 6⟩, 9, 1⟩ : RespEvent)).server_id =
          some e ∧
      mkInfo (⟨⟨5, 1, 2, 3, 4, 5, 6⟩, 9, 1⟩ : RespEvent) = mkInfo e) ∧
    ((sweep dupEvents).1 =
      [{ server_id := 5, name := 1, ip := 9, tcp_port := 2,
         audio_udp_port := 3, capability_flags := 4, peer_count := 5,
         max_peers := 6, last_seen := 1, valid := true }]) ∧
    (∃ s ∈ (sweep dupEvents).1, s.server_id = 5) :=
  ⟨by decide, by decide, by decide,
   (discovery_sweep_spec dupEvents).2.2.2.1 _ (by decide),
   by decide,
   (discovery_sweep_spec dupEvents).2.2.2.2 (by decide)
     ⟨⟨5, 0, 0, 0, 0, 0, 0⟩, 0, 0⟩ (by decide)⟩

end Voiceshare
